import Mathlib

/-!
Shallow embedding of the orchestration layer of the FricoAi vegetable
recognition service: the heuristics of `src/routes/ai-recognition.js`
(image-complexity analysis, prediction diversity, multi-vegetable context
analysis, the unknown-vegetable heuristic, mode selection, the single and
multiple detection flows) and the multi-object detector of
`src/vegetable-classifier-clean/src/MultiVegetableDetector.js`
(grid tiling, per-zone threshold filtering, weak-vegetable recovery,
result aggregation).

Modelling conventions:
* JS numbers carrying confidences, scores and complexity values are
  embedded as `ℚ` (all arithmetic performed on them is exact on the
  inputs of interest); pixel sizes and byte counts are `ℕ`.
* Code that can throw a runtime exception (array access on a possibly
  empty prediction list, tiling failures, the external classifier) is
  embedded in `Except String`; a `.error` is a thrown JS exception, and
  a JS `try`/`catch` becomes a `match` on the `Except` value.
* The external classifier and the sharp image library are oracles passed
  in as parameters (`Except String (List Prediction)` for classification
  results, image width/height plus a per-cell extraction-success oracle
  for sharp).  Filesystem bookkeeping (temp files, MongoDB saves,
  logging) has no bearing on the returned values and is not modelled;
  write-only record fields (`zonePosition`, `globalRank`, `note`) are
  likewise dropped.
-/

namespace FricoAi

/-- Decidable equality for `Except` results, enabling concrete evaluation of
embedded computations in witnesses and counterexamples. -/
instance {ε α : Type _} [DecidableEq ε] [DecidableEq α] : DecidableEq (Except ε α) :=
  fun x y =>
    match x, y with
    | .ok a, .ok b =>
      if h : a = b then isTrue (by rw [h])
      else isFalse (by intro hc; cases hc; exact h rfl)
    | .error a, .error b =>
      if h : a = b then isTrue (by rw [h])
      else isFalse (by intro hc; cases hc; exact h rfl)
    | .ok _, .error _ => isFalse (by intro hc; cases hc)
    | .error _, .ok _ => isFalse (by intro hc; cases hc)

/-- A single classifier prediction: `{class, confidence}` (confidence in percent). -/
structure Prediction where
  cls : String
  confidence : ℚ
deriving DecidableEq, Repr

/-- Output of `analyzeImageComplexity` in `routes/ai-recognition.js`. -/
structure ImageAnalysis where
  complexity : ℚ
  regions : ℤ
  fileSize : ℕ
deriving DecidableEq, Repr

/-- `analyzeImageComplexity`, success path (`fs.statSync` succeeded and
returned `fileSize` bytes): `complexity = min(fileSize / 2MB, 1)`,
`regions = floor(complexity * 4) + 1`. -/
def analyzeImageComplexity (fileSize : ℕ) : ImageAnalysis :=
  let sizeComplexity : ℚ := min ((fileSize : ℚ) / (2 * 1024 * 1024)) 1
  let estimatedRegions : ℤ := ⌊sizeComplexity * 4⌋ + 1
  { complexity := sizeComplexity, regions := estimatedRegions, fileSize := fileSize }

/-- `analyzeImageComplexity` including its `catch` branch: `none` models a
read error (`fs.statSync` threw), answered by the fixed default
`{complexity: 0.3, regions: 1, fileSize: 0}`. -/
def analyzeImageComplexityR : Option ℕ → ImageAnalysis
  | some fileSize => analyzeImageComplexity fileSize
  | none => { complexity := 3/10, regions := 1, fileSize := 0 }

/-- `calculatePredictionDiversity`: `0` for fewer than two predictions, else
`clamp01 (1 - (top1 - top2)/100)`. -/
def calculatePredictionDiversity : List Prediction → ℚ
  | p0 :: p1 :: _ =>
    let confidenceDiff := p0.confidence - p1.confidence
    let diversity := 1 - confidenceDiff / 100
    max 0 (min 1 diversity)
  | _ => 0

/-- The fixed known-category list used across the heuristics and the detector. -/
def knownVegetables : List String := ["Tomate", "Carotte", "Pomme de terre"]

/-- Output of `analyzeImageContext`. -/
structure ContextAnalysis where
  isLikelyMultiVegetable : Bool
  multiVegetableScore : ℕ
  confidence : ℚ
deriving DecidableEq, Repr

/-- Body of `analyzeImageContext` on a non-empty prediction list
`top :: rest` (the JS function reads `predictions[0]` and so throws on an
empty list; see `analyzeImageContext`). Six weighted indicators, weights
2,2,3,3,2,2; likely multi-vegetable iff the sum reaches 6. -/
def analyzeImageContextCore (top : Prediction) (rest : List Prediction)
    (ia : ImageAnalysis) : ContextAnalysis :=
  let preds := top :: rest
  let predictionDiversity := calculatePredictionDiversity preds
  let sufficientSize : Bool := decide (500 * 1024 < ia.fileSize)
  let highComplexity : Bool := decide ((4 : ℚ)/10 < ia.complexity)
  let balancedPredictions : Bool := decide ((8 : ℚ)/10 < predictionDiversity)
  let veryBalanced : Bool :=
    match rest with
    | p1 :: p2 :: _ =>
      decide (top.confidence < 60) && decide (25 < p1.confidence) &&
        decide (15 < p2.confidence)
    | _ => false
  let moderateLowConfidence : Bool :=
    decide (25 ≤ top.confidence) && decide (top.confidence < 60)
  let allKnownVegetables : Bool := preds.all (fun p => knownVegetables.contains p.cls)
  let score : ℕ :=
    (if sufficientSize then 2 else 0) + (if highComplexity then 2 else 0) +
    (if balancedPredictions then 3 else 0) + (if veryBalanced then 3 else 0) +
    (if moderateLowConfidence then 2 else 0) + (if allKnownVegetables then 2 else 0)
  { isLikelyMultiVegetable := decide (6 ≤ score),
    multiVegetableScore := score,
    confidence := (score : ℚ) / 14 * 100 }

/-- `analyzeImageContext`: throws (a `TypeError` reading
`predictions[0].confidence`) on an empty prediction list. -/
def analyzeImageContext : List Prediction → ImageAnalysis → Except String ContextAnalysis
  | [], _ => .error "TypeError: cannot read confidence of undefined"
  | top :: rest, ia => .ok (analyzeImageContextCore top rest ia)

/-- `predictions[1] || {confidence: 0}` — confidence of the runner-up
prediction, defaulting to 0. -/
def secondConfidence : List Prediction → ℚ
  | p1 :: _ => p1.confidence
  | [] => 0

/-- Output of `shouldClassifyAsUnknown` (the fields the callers read). -/
structure UnknownVerdict where
  isUnknown : Bool
  uncertaintyScore : ℕ
  confidence : ℚ
  diversity : ℚ
  confidenceGap : ℚ
  contextAnalysis : Option ContextAnalysis
  bestGuessCls : String
  bestGuessConf : ℚ
deriving DecidableEq, Repr

/-- Body of `shouldClassifyAsUnknown` on a non-empty prediction list.  When
image signals are supplied and the context analysis reports a likely
multi-vegetable image the verdict short-circuits to "not unknown" with
uncertainty 0; otherwise four strict criteria are counted and
`isUnknown = (count ≥ 3) && (top1 < 40)`. -/
def shouldClassifyAsUnknownCore (top : Prediction) (rest : List Prediction)
    (imageAnalysis : Option ImageAnalysis) : UnknownVerdict :=
  let predictionDiversity := calculatePredictionDiversity (top :: rest)
  let confidenceGap := top.confidence - secondConfidence rest
  let contextAnalysis : Option ContextAnalysis :=
    imageAnalysis.map (analyzeImageContextCore top rest)
  let isLikelyMulti : Bool :=
    match contextAnalysis with
    | some ctx => ctx.isLikelyMultiVegetable
    | none => false
  if isLikelyMulti then
    { isUnknown := false, uncertaintyScore := 0, confidence := top.confidence,
      diversity := predictionDiversity, confidenceGap := confidenceGap,
      contextAnalysis := contextAnalysis,
      bestGuessCls := top.cls, bestGuessConf := top.confidence }
  else
    let veryLowConfidence : Bool := decide (top.confidence < 40)
    let veryLowConfidenceGap : Bool := decide (confidenceGap < 15)
    let extremeDiversity : Bool := decide ((85 : ℚ)/100 < predictionDiversity)
    let noStrongPrediction : Bool := decide (top.confidence < 30)
    let uncertaintyScore : ℕ :=
      (if veryLowConfidence then 1 else 0) + (if veryLowConfidenceGap then 1 else 0) +
      (if extremeDiversity then 1 else 0) + (if noStrongPrediction then 1 else 0)
    let isUnknown : Bool := decide (3 ≤ uncertaintyScore) && decide (top.confidence < 40)
    { isUnknown := isUnknown, uncertaintyScore := uncertaintyScore,
      confidence := top.confidence, diversity := predictionDiversity,
      confidenceGap := confidenceGap, contextAnalysis := contextAnalysis,
      bestGuessCls := top.cls, bestGuessConf := top.confidence }

/-- `shouldClassifyAsUnknown`: throws (a `TypeError` computing
`topPrediction.confidence - secondPrediction.confidence`) on an empty
prediction list. -/
def shouldClassifyAsUnknown :
    List Prediction → Option ImageAnalysis → Except String UnknownVerdict
  | [], _ => .error "TypeError: cannot read confidence of undefined"
  | top :: rest, ia => .ok (shouldClassifyAsUnknownCore top rest ia)

/-- Output of `simulateQuickScan`. -/
structure QuickScan where
  detectedCount : ℤ
  confidence : ℚ
deriving DecidableEq, Repr

/-- Body of `simulateQuickScan` on a non-empty prediction list. -/
def simulateQuickScanCore (ia : ImageAnalysis) (top : Prediction) : QuickScan :=
  let detectedCount : ℤ := 1
  let confidence : ℚ := top.confidence
  let step1 : ℤ × ℚ :=
    if ia.complexity > 1/2 ∧ top.confidence < 70 then
      (ia.regions, max (top.confidence - 10) 30)
    else (detectedCount, confidence)
  let step2 : ℤ := if ia.complexity > 8/10 then max step1.1 2 else step1.1
  { detectedCount := min step2 5, confidence := step1.2 }

/-- `simulateQuickScan`: throws on an empty prediction list
(`predictions[0].confidence`). -/
def simulateQuickScan (ia : ImageAnalysis) : List Prediction → Except String QuickScan
  | [] => .error "TypeError: cannot read confidence of undefined"
  | top :: _ => .ok (simulateQuickScanCore ia top)

/-- The two processing modes selected by `determineDetectionMode`. -/
inductive Mode
  | single
  | multiple
deriving DecidableEq, Repr

/-- Output of `determineDetectionMode` (the fields the route reads). -/
structure ModeDecision where
  mode : Mode
  score : ℚ
  maxScore : ℚ
  fallback : Bool
deriving DecidableEq, Repr

/-- Body of `determineDetectionMode` once the image analysis and a
non-empty quick classification are available: multi-vegetable context
forces `multiple` (8/10), an unknown verdict forces `single` (0/10), and
otherwise seven weighted criteria (max 15) are compared against the
threshold `15 * 0.35`. -/
def determineDetectionModeCore (ia : ImageAnalysis) (top : Prediction)
    (rest : List Prediction) : Except String ModeDecision :=
  let ua := shouldClassifyAsUnknownCore top rest (some ia)
  let ctxMulti : Bool :=
    match ua.contextAnalysis with
    | some ctx => ctx.isLikelyMultiVegetable
    | none => false
  if ctxMulti then
    .ok { mode := .multiple, score := 8, maxScore := 10, fallback := false }
  else if ua.isUnknown then
    .ok { mode := .single, score := 0, maxScore := 10, fallback := false }
  else
    match simulateQuickScan ia (top :: rest) with
    | .error e => .error e
    | .ok scan =>
      let quickDiversity := calculatePredictionDiversity (top :: rest)
      let score : ℚ :=
        (if ia.complexity > 1/2 then 2 else 0) +
        (if ia.regions > 2 then 2 else 0) +
        (if 30 ≤ top.confidence ∧ top.confidence < 70 then 2 else 0) +
        (if quickDiversity > 6/10 then 3 else 0) +
        (if scan.detectedCount > 1 then 3 else 0) +
        (if scan.confidence > 40 then 1 else 0) +
        (if 300 * 1024 < ia.fileSize then 2 else 0)
      let maxScore : ℚ := 15
      let threshold := maxScore * 35 / 100
      .ok { mode := if score ≥ threshold then .multiple else .single,
            score := score, maxScore := maxScore, fallback := false }

/-- `determineDetectionMode`.  `fileSize?` is the (possibly failing) image
stat, `quick` the quick whole-image classification; any exception inside
the `try` block (a classifier failure or an empty prediction list) is
caught and answered with the fallback decision `{single, 0, 15, fallback}`. -/
def determineDetectionMode (fileSize? : Option ℕ)
    (quick : Except String (List Prediction)) : ModeDecision :=
  let ia := analyzeImageComplexityR fileSize?
  let body : Except String ModeDecision :=
    match quick with
    | .error e => .error e
    | .ok [] => .error "TypeError: cannot read confidence of undefined"
    | .ok (top :: rest) => determineDetectionModeCore ia top rest
  match body with
  | .ok d => d
  | .error _ => { mode := .single, score := 0, maxScore := 15, fallback := true }

/-! ## MultiVegetableDetector (`src/MultiVegetableDetector.js`) -/

/-- Identifier of a zone result: zone number `i + 1` for grid zone `i`, or
the `'global_recovery'` sentinel added by `includeWeakButKnownVegetables`. -/
inductive ZoneId
  | num (n : ℕ)
  | globalRecovery
deriving DecidableEq, Repr

/-- The string interpolated into `zone_${zone.zone}` position tags. -/
def ZoneId.tag : ZoneId → String
  | .num n => toString n
  | .globalRecovery => "global_recovery"

/-- One entry of the `zoneResults` array (the `position` object, which is
write-only, is dropped). -/
structure ZoneResult where
  zone : ZoneId
  vegetables : List Prediction
  topVegetable : Prediction
deriving DecidableEq, Repr

/-- The adaptive per-category thresholds of `detectMultipleVegetables`:
`{Tomate: 45, Carotte: 35, 'Pomme de terre': 50}` with default 50. -/
def vegetableThreshold (cls : String) : ℚ :=
  if cls = "Tomate" then 45
  else if cls = "Carotte" then 35
  else if cls = "Pomme de terre" then 50
  else 50

/-- Pixel geometry of one materialized grid zone. -/
structure ZonePosition where
  row : ℕ
  col : ℕ
  left : ℕ
  top : ℕ
  width : ℕ
  height : ℕ
deriving DecidableEq, Repr

/-- `this.gridSize` (3×3 grid). -/
def gridSize : ℕ := 3

/-- The row/column pairs visited by the nested zone-creation loops. -/
def gridCells : List (ℕ × ℕ) :=
  (List.range gridSize).flatMap fun row => (List.range gridSize).map fun col => (row, col)

/-- `createImageGrid`, given the image dimensions from `sharp().metadata()`
and an oracle `extractOk` telling which cell extractions succeed (a failed
`sharp().extract().toFile()` is caught per-cell and the cell skipped).
Errors thrown inside are re-thrown wrapped in
`"Impossible de créer la grille d'image: "`. -/
def createImageGrid (width height : ℕ) (extractOk : ℕ → ℕ → Bool) :
    Except String (List ZonePosition) :=
  if width = 0 ∨ height = 0 then
    .error "Impossible de créer la grille d'image: Métadonnées invalides"
  else if width < 150 ∨ height < 150 then
    .error ("Impossible de créer la grille d'image: Image trop petite: " ++
      toString width ++ "x" ++ toString height ++ " (minimum 150x150 pour découpe)")
  else
    let zoneWidth := width / gridSize
    let zoneHeight := height / gridSize
    if zoneWidth < 50 ∨ zoneHeight < 50 then
      .error ("Impossible de créer la grille d'image: Zones calculées trop petites: " ++
        toString zoneWidth ++ "x" ++ toString zoneHeight ++ " (minimum 50x50)")
    else
      let zones := gridCells.filterMap fun rc =>
        let row := rc.1
        let col := rc.2
        let left := col * zoneWidth
        let top := row * zoneHeight
        let actualWidth := if col = gridSize - 1 then width - left else zoneWidth
        let actualHeight := if row = gridSize - 1 then height - top else zoneHeight
        if width ≤ left ∨ height ≤ top then none
        else if actualWidth = 0 ∨ actualHeight = 0 then none
        else if actualWidth < 30 ∨ actualHeight < 30 then none
        else if extractOk row col then
          some { row := row, col := col, left := left, top := top,
                 width := actualWidth, height := actualHeight }
        else none
      if zones.isEmpty then
        .error "Impossible de créer la grille d'image: Aucune zone valide n'a pu être créée"
      else .ok zones

/-- The adaptive-threshold filter applied to each zone's predictions
(a prediction survives iff its confidence strictly exceeds its category's
threshold). -/
def zoneFilter (zonePredictions : List Prediction) : List Prediction :=
  zonePredictions.filter fun pred => decide (pred.confidence > vegetableThreshold pred.cls)

/-- The per-zone classification loop of `detectMultipleVegetables`: zone `i`
(0-based) is classified by the oracle `zoneClassify i`; a classification
exception is caught and the zone skipped; a zone with no reliable
prediction is likewise skipped; otherwise a `ZoneResult` numbered `i + 1`
is appended. -/
def buildZoneResults (zoneClassify : ℕ → Except String (List Prediction))
    (numZones : ℕ) : List ZoneResult :=
  (List.range numZones).foldl
    (fun acc i =>
      match zoneClassify i with
      | .error _ => acc
      | .ok zonePredictions =>
        match zoneFilter zonePredictions with
        | [] => acc
        | top :: rest =>
          acc ++ [{ zone := ZoneId.num (i + 1), vegetables := top :: rest,
                    topVegetable := top }])
    []

/-- `includeWeakButKnownVegetables`: every known vegetable present in the
global predictions with confidence > 25 but whose class no zone detected is
appended as a synthetic `'global_recovery'` zone result whose top
confidence is floored at 30. -/
def includeWeakButKnownVegetables (globalResult : List Prediction)
    (zoneResults : List ZoneResult) : List ZoneResult :=
  let detectedTypes := zoneResults.map fun z => z.topVegetable.cls
  zoneResults ++
    (globalResult.filter fun p =>
        knownVegetables.contains p.cls && !(detectedTypes.contains p.cls) &&
          decide (p.confidence > 25)).map
      fun p =>
        { zone := ZoneId.globalRecovery, vegetables := [p],
          topVegetable := { p with confidence := max p.confidence 30 } }

/-- One aggregated detection (`zonePosition`, `globalRank` and `note` are
write-only fields and dropped). -/
structure DetectedVeg where
  type : String
  confidence : ℚ
  positions : List String
  detectionMethod : String
deriving DecidableEq, Repr

/-- The JS `Map` of `aggregateResults`, as an insertion-ordered association
list with unique keys. -/
abbrev VegMap := List (String × DetectedVeg)

/-- `Map.has`. -/
def mapHas (m : VegMap) (k : String) : Bool :=
  m.any fun e => decide (e.1 = k)

/-- `Map.get`. -/
def mapGet (m : VegMap) (k : String) : Option DetectedVeg :=
  (m.find? fun e => decide (e.1 = k)).map Prod.snd

/-- `Map.set`: replace in place when the key exists, else append. -/
def mapSet (m : VegMap) (k : String) (v : DetectedVeg) : VegMap :=
  if mapHas m k then m.map (fun e => if e.1 = k then (k, v) else e)
  else m ++ [(k, v)]

/-- In-place mutation of the object stored under an existing key
(`existing.confidence = …` etc.). -/
def mapUpdate (m : VegMap) (k : String) (f : DetectedVeg → DetectedVeg) : VegMap :=
  m.map fun e => if e.1 = k then (e.1, f e.2) else e

/-- The body of step 1 of `aggregateResults` for one zone result: a repeated
class keeps the max confidence and becomes `multi-zone`, a new class is
inserted with method `zone` (or `global-recovery` for the sentinel). -/
def aggStep1Fun (m : VegMap) (zone : ZoneResult) : VegMap :=
  let topVeg := zone.topVegetable
  if mapHas m topVeg.cls then
    mapUpdate m topVeg.cls fun existing =>
      { existing with
        positions := existing.positions ++ ["zone_" ++ zone.zone.tag],
        confidence := max existing.confidence topVeg.confidence,
        detectionMethod := "multi-zone" }
  else
    mapSet m topVeg.cls
      { type := topVeg.cls, confidence := topVeg.confidence,
        positions := ["zone_" ++ zone.zone.tag],
        detectionMethod :=
          if zone.zone = ZoneId.globalRecovery then "global-recovery" else "zone" }

/-- Step 1 of `aggregateResults`: fold the zone detections into the map. -/
def aggStep1 (zoneResults : List ZoneResult) : VegMap :=
  zoneResults.foldl aggStep1Fun []

/-- The body of step 2 of `aggregateResults` for one global prediction:
recover a known vegetable the zones missed (confidence > 20, floored at
30, method `global-weak`) or raise the confidence of an already-present
known vegetable when the global pass saw it higher (method `enhanced`). -/
def aggStep2Fun (m : VegMap) (prediction : Prediction) : VegMap :=
  if knownVegetables.contains prediction.cls then
    if !(mapHas m prediction.cls) then
      if prediction.confidence > 20 then
        mapSet m prediction.cls
          { type := prediction.cls, confidence := max prediction.confidence 30,
            positions := ["global"], detectionMethod := "global-weak" }
      else m
    else
      mapUpdate m prediction.cls fun existing =>
        if prediction.confidence > existing.confidence then
          { existing with
            confidence := prediction.confidence,
            positions :=
              if existing.positions.contains "global" then existing.positions
              else existing.positions ++ ["global"],
            detectionMethod := "enhanced" }
        else existing
  else m

/-- Step 2 of `aggregateResults`: fold the global predictions over the map. -/
def aggStep2 (globalResult : List Prediction) (m0 : VegMap) : VegMap :=
  globalResult.foldl aggStep2Fun m0

/-- Does the first character list occur at the head of the second? -/
def leadMatch : List Char → List Char → Bool
  | [], _ => true
  | _ :: _, [] => false
  | a :: as, b :: bs => a == b && leadMatch as bs

/-- Does the first character list occur anywhere inside the second? -/
def hasSub : List Char → List Char → Bool
  | sub, [] => leadMatch sub []
  | sub, b :: bs => leadMatch sub (b :: bs) || hasSub sub bs

/-- `detectionMethod.includes('zone')` (substring test of the sort
comparator: true exactly on `"zone"` and `"multi-zone"` among the methods
this code produces). -/
def methodIncludesZone (s : String) : Bool := hasSub "zone".data s.data

/-- The sort comparator of `aggregateResults` as a "may precede" relation:
zone-derived detections first, then descending confidence. -/
def vegBefore (a b : DetectedVeg) : Bool :=
  let az := methodIncludesZone a.detectionMethod
  let bz := methodIncludesZone b.detectionMethod
  if az && !bz then true
  else if !az && bz then false
  else decide (b.confidence ≤ a.confidence)

/-- The final `Array.from(vegetables.values()).sort(...)`, embedded as a
stable insertion sort under the comparator's "may precede" relation. -/
def sortDetected (l : List DetectedVeg) : List DetectedVeg :=
  l.insertionSort fun a b => vegBefore a b = true

/-- The fully-populated `Map` of `aggregateResults`: steps 1 and 2 followed
by step 3, which appends the dominant global prediction when its
confidence exceeds 60 and its class is still absent. -/
def aggMap (globalResult : List Prediction) (zoneResults : List ZoneResult) : VegMap :=
  let m2 := aggStep2 globalResult (aggStep1 zoneResults)
  match globalResult with
  | [] => m2
  | dominantGlobal :: _ =>
    if dominantGlobal.confidence > 60 ∧ mapHas m2 dominantGlobal.cls = false then
      mapSet m2 dominantGlobal.cls
        { type := dominantGlobal.cls, confidence := dominantGlobal.confidence,
          positions := ["global-dominant"], detectionMethod := "global-dominant" }
    else m2

/-- `aggregateResults`.  Throws (`dominantGlobal.confidence` on
`globalResult[0] = undefined`) when the global prediction list is empty;
otherwise sorts the map's values, zone-derived methods first. -/
def aggregateResults (globalResult : List Prediction)
    (zoneResults : List ZoneResult) : Except String (List DetectedVeg) :=
  match globalResult with
  | [] => .error "TypeError: cannot read confidence of undefined"
  | _ :: _ => .ok (sortDetected ((aggMap globalResult zoneResults).map Prod.snd))

/-- `Math.round` on the non-negative values reached here (half rounds up). -/
def jsRound (q : ℚ) : ℤ := ⌊q + 1/2⌋

/-- `calculateOverallConfidence`: capped rounded average plus a bonus of 5
when more than one vegetable was detected. -/
def calculateOverallConfidence (vegetables : List DetectedVeg) : ℚ :=
  match vegetables with
  | [] => 0
  | _ =>
    let avgConfidence := (vegetables.map fun v => v.confidence).sum / vegetables.length
    let bonus : ℚ := if 1 < vegetables.length then 5 else 0
    min 100 ((jsRound (avgConfidence + bonus) : ℚ))

/-- The value returned by `detectMultipleVegetables` (summary flattened). -/
structure MultiResult where
  dominantVegetable : Prediction
  allPredictions : List Prediction
  detected : List DetectedVeg
  zones : List ZoneResult
  totalVegetables : ℕ
  uniqueTypes : ℕ
  overallConfidence : ℚ
deriving DecidableEq, Repr

/-- `detectMultipleVegetables`: global classification, tiling, per-zone
classification with per-zone error recovery, weak-vegetable recovery and
aggregation.  `width`/`height` come from the image metadata, `extractOk`
is the per-cell sharp oracle, `globalClassify` the whole-image classifier
call and `zoneClassify i` the classifier call on zone `i` (0-based).  Any
uncaught exception inside (global classification, tiling, aggregation)
propagates to the caller. -/
def detectMultipleVegetables (width height : ℕ) (extractOk : ℕ → ℕ → Bool)
    (globalClassify : Except String (List Prediction))
    (zoneClassify : ℕ → Except String (List Prediction)) : Except String MultiResult :=
  match globalClassify with
  | .error e => .error e
  | .ok globalResult =>
    match createImageGrid width height extractOk with
    | .error e => .error e
    | .ok zones =>
      let zoneResults := buildZoneResults zoneClassify zones.length
      let enhancedZoneResults := includeWeakButKnownVegetables globalResult zoneResults
      match aggregateResults globalResult enhancedZoneResults with
      | .error e => .error e
      | .ok detectedVegetables =>
        match globalResult with
        | [] => .error "TypeError: cannot read class of undefined"
        | dominant :: _ =>
          .ok { dominantVegetable := dominant, allPredictions := globalResult,
                detected := detectedVegetables, zones := enhancedZoneResults,
                totalVegetables := detectedVegetables.length,
                uniqueTypes := (detectedVegetables.map fun v => v.type).dedup.length,
                overallConfidence := calculateOverallConfidence detectedVegetables }

/-! ## The detection flows of `routes/ai-recognition.js` -/

/-- JS `String.replace(' ', '_')` with a string pattern rewrites only the
first occurrence. -/
def replaceFirstSpace : List Char → List Char
  | [] => []
  | c :: cs => if c == ' ' then '_' :: cs else c :: replaceFirstSpace cs

/-- `class.toLowerCase().replace(' ', '_')`. -/
def jsNameOf (s : String) : String :=
  String.mk (replaceFirstSpace (s.data.map Char.toLower))

/-- The vegetable part of `performSingleDetection`'s result. -/
structure SingleResult where
  name : String
  displayName : String
  confidence : ℚ
  isReliable : Bool
  isUnknown : Bool
deriving DecidableEq, Repr

/-- `performSingleDetection` (classifier-predictions branch): classify the
whole image, run the unknown heuristic with image signals, and either
report `unknown_vegetable` with confidence 0 or the top prediction. -/
def performSingleDetection (classify : Except String (List Prediction))
    (fileSize? : Option ℕ) : Except String SingleResult :=
  match classify with
  | .error e => .error e
  | .ok predictions =>
    let imageAnalysis := analyzeImageComplexityR fileSize?
    match shouldClassifyAsUnknown predictions (some imageAnalysis) with
    | .error e => .error e
    | .ok unknownAnalysis =>
      match predictions with
      | [] => .error "TypeError: cannot read class of undefined"
      | bestPrediction :: _ =>
        if unknownAnalysis.isUnknown then
          .ok { name := "unknown_vegetable", displayName := "Légume non reconnu",
                confidence := 0, isReliable := false, isUnknown := true }
        else
          .ok { name := jsNameOf bestPrediction.cls, displayName := bestPrediction.cls,
                confidence := bestPrediction.confidence,
                isReliable := decide (70 ≤ bestPrediction.confidence),
                isUnknown := false }

/-- The synthesized 3-candidate prediction list used by
`performMultipleDetection` to re-evaluate each detected vegetable. -/
def mockPredictions (veg : DetectedVeg) : List Prediction :=
  [ { cls := veg.type, confidence := veg.confidence },
    { cls := "Tomate", confidence := max 0 (veg.confidence - 20) },
    { cls := "Carotte", confidence := max 0 (veg.confidence - 30) } ]

/-- One entry of `enrichedVegetables`. -/
structure EnrichedVeg where
  name : String
  displayName : String
  confidence : ℚ
  positions : List String
  detectionMethod : String
  isUnknown : Bool
deriving DecidableEq, Repr

/-- The per-object enrichment of `performMultipleDetection`: re-evaluate a
detection against its mock prediction list (no image signals) and blank it
out when judged unknown. -/
def enrichVeg (veg : DetectedVeg) : Except String EnrichedVeg :=
  (shouldClassifyAsUnknown (mockPredictions veg) none).map fun ua =>
    { name := if ua.isUnknown then "unknown_vegetable" else jsNameOf veg.type,
      displayName := if ua.isUnknown then "Légume non reconnu" else veg.type,
      confidence := if ua.isUnknown then 0 else veg.confidence,
      positions := veg.positions, detectionMethod := veg.detectionMethod,
      isUnknown := ua.isUnknown }

/-- The `multiResult.detected.map(...)` enrichment loop: JS `map` evaluates
left to right and the first thrown exception propagates. -/
def enrichAll : List DetectedVeg → Except String (List EnrichedVeg)
  | [] => .ok []
  | veg :: rest =>
    match enrichVeg veg with
    | .error e => .error e
    | .ok ev =>
      match enrichAll rest with
      | .error e => .error e
      | .ok evs => .ok (ev :: evs)

/-- What `performMultipleDetection` answers: the multi-object result, or the
single-object result tagged as a graceful fallback with the failure reason. -/
inductive DetectionOutcome
  | multiple (dominantIsUnknown : Bool) (enriched : List EnrichedVeg) (multi : MultiResult)
  | singleFallback (single : SingleResult) (fallbackReason : String)
deriving DecidableEq, Repr

/-- The `catch` of `performMultipleDetection`: fall back to the single
detection, attaching the failure reason; a failure of the single path
itself propagates. -/
def fallbackToSingle (single : Except String SingleResult) (reason : String) :
    Except String DetectionOutcome :=
  match single with
  | .ok s => .ok (.singleFallback s reason)
  | .error e => .error e

/-- The `try` block of `performMultipleDetection`: the detector result,
the per-object enrichment and the dominant-vegetable unknown analysis;
any exception propagates out of the block. -/
def performMultipleAttempt (multi : Except String MultiResult) :
    Except String DetectionOutcome :=
  match multi with
  | .error e => .error e
  | .ok m =>
    match enrichAll m.detected with
    | .error e => .error e
    | .ok enriched =>
      match shouldClassifyAsUnknown m.allPredictions none with
      | .error e => .error e
      | .ok dominantUA => .ok (.multiple dominantUA.isUnknown enriched m)

/-- `performMultipleDetection`: attempt the multi-object path; any exception
in it is caught and answered by the single-object path with the reason
attached. -/
def performMultipleDetection (multi : Except String MultiResult)
    (single : Except String SingleResult) : Except String DetectionOutcome :=
  match performMultipleAttempt multi with
  | .ok r => .ok r
  | .error e => fallbackToSingle single e

/-! ## Specification-side definitions used to state the claims -/

/-- The largest confidence a prediction list reports for category `c`
(0 when the category does not occur). -/
def maxConfFor (c : String) (preds : List Prediction) : ℚ :=
  preds.foldr (fun p acc => if p.cls = c then max p.confidence acc else acc) 0

/-- The largest confidence reported for category `c` by the global
prediction list or by any successful zone classification among zones
`0 … numZones − 1`: the pool of contributing confidences that feeds the
aggregation of the multi-object path. -/
def contribMax (c : String) (globalResult : List Prediction)
    (zoneClassify : ℕ → Except String (List Prediction)) (numZones : ℕ) : ℚ :=
  (List.range numZones).foldr
    (fun i acc =>
      match zoneClassify i with
      | .ok zp => max (maxConfFor c zp) acc
      | .error _ => acc)
    (maxConfFor c globalResult)

/-- Every entry of the aggregation map stores a `DetectedVeg` whose `type`
equals its key. -/
def TypesMatch (m : VegMap) : Prop := ∀ e ∈ m, e.2.type = e.1

/-- Whether a detection response took the multi-object path (as opposed to
a single fallback or a hard error). -/
def isMultipleOutcome : Except String DetectionOutcome → Bool
  | .ok (.multiple _ _ _) => true
  | _ => false

/-! ## Basic lemmas about the heuristics -/

theorem calculatePredictionDiversity_nonneg (preds : List Prediction) :
    0 ≤ calculatePredictionDiversity preds := by
  match preds with
  | [] => simp [calculatePredictionDiversity]
  | [_] => simp [calculatePredictionDiversity]
  | p0 :: p1 :: l =>
    simp only [calculatePredictionDiversity]
    exact le_max_left 0 _

theorem calculatePredictionDiversity_le_one (preds : List Prediction) :
    calculatePredictionDiversity preds ≤ 1 := by
  match preds with
  | [] => simp [calculatePredictionDiversity]
  | [_] => simp [calculatePredictionDiversity]
  | p0 :: p1 :: l =>
    simp only [calculatePredictionDiversity]
    exact max_le (by norm_num) (min_le_left 1 _)

/-- C6 (counterexample): the unknown-vegetable heuristic is not total on
malformed input — on the empty prediction list it throws a `TypeError`
(reading `topPrediction.confidence` of `predictions[0] = undefined`)
instead of returning a verdict built from fallback defaults, contradicting
the claim that every heuristic never throws. -/
theorem C6_counterexample :
    shouldClassifyAsUnknown [] none =
      .error "TypeError: cannot read confidence of undefined" := rfl

/-- C6 (amended): the heuristics are total on the inputs the classifier
contract can produce — every *non-empty* prediction list — returning a
verdict and never an exception; the complexity analyzer is total on all
inputs, answering any read error with the fixed default
`{complexity: 0.3, regions: 1}`; and the diversity computation is total
with its result clamped to `[0, 1]`.  (On the empty prediction list the
unknown, context and quick-scan heuristics all throw, see the
counterexample.) -/
theorem C6_total_on_valid_inputs (top : Prediction) (rest : List Prediction)
    (ia? : Option ImageAnalysis) (ia : ImageAnalysis) :
    (∃ v, shouldClassifyAsUnknown (top :: rest) ia? = .ok v) ∧
    (∃ c, analyzeImageContext (top :: rest) ia = .ok c) ∧
    (∃ q, simulateQuickScan ia (top :: rest) = .ok q) ∧
    analyzeImageComplexityR none = { complexity := 3/10, regions := 1, fileSize := 0 } ∧
    0 ≤ calculatePredictionDiversity (top :: rest) ∧
    calculatePredictionDiversity (top :: rest) ≤ 1 :=
  ⟨⟨_, rfl⟩, ⟨_, rfl⟩, ⟨_, rfl⟩, rfl,
    calculatePredictionDiversity_nonneg _, calculatePredictionDiversity_le_one _⟩

/-- C8: the image-signal analyzer computes
`complexityScore = min(byteSize / 2MiB, 1)` and
`estimatedRegionCount = floor(complexityScore * 4) + 1`, the latter always
in `[1, 5]`; on a read error it returns the fixed default
`{complexityScore: 0.3, regionCount: 1}` instead of propagating. -/
theorem C8_image_signals (fs? : Option ℕ) :
    (∀ fs, fs? = some fs →
      (analyzeImageComplexityR fs?).complexity = min ((fs : ℚ) / (2 * 1024 * 1024)) 1 ∧
      (analyzeImageComplexityR fs?).regions =
        ⌊(analyzeImageComplexityR fs?).complexity * 4⌋ + 1) ∧
    (1 ≤ (analyzeImageComplexityR fs?).regions ∧ (analyzeImageComplexityR fs?).regions ≤ 5) ∧
    (fs? = none →
      analyzeImageComplexityR fs? = { complexity := 3/10, regions := 1, fileSize := 0 }) := by
  cases fs? with
  | none =>
    refine ⟨?_, ⟨?_, ?_⟩, ?_⟩
    · intro fs h; cases h
    · norm_num [analyzeImageComplexityR]
    · norm_num [analyzeImageComplexityR]
    · intro _; rfl
  | some fs =>
    refine ⟨?_, ⟨?_, ?_⟩, ?_⟩
    · intro fs' h; cases h; exact ⟨rfl, rfl⟩
    · show 1 ≤ ⌊min ((fs : ℚ) / (2 * 1024 * 1024)) 1 * 4⌋ + 1
      have h0 : (0 : ℚ) ≤ min ((fs : ℚ) / (2 * 1024 * 1024)) 1 :=
        le_min (by positivity) (by norm_num)
      have : (0 : ℤ) ≤ ⌊min ((fs : ℚ) / (2 * 1024 * 1024)) 1 * 4⌋ :=
        Int.floor_nonneg.mpr (by nlinarith)
      omega
    · show ⌊min ((fs : ℚ) / (2 * 1024 * 1024)) 1 * 4⌋ + 1 ≤ 5
      have h1 : min ((fs : ℚ) / (2 * 1024 * 1024)) 1 ≤ 1 := min_le_right _ _
      have : ⌊min ((fs : ℚ) / (2 * 1024 * 1024)) 1 * 4⌋ ≤ ⌊(4 : ℚ)⌋ :=
        Int.floor_le_floor (by nlinarith)
      have h4 : ⌊(4 : ℚ)⌋ = 4 := by norm_num
      omega
    · intro h; cases h

/-- C8 witness: a concrete 1 MiB image yields complexity 1/2 and 3 regions
(in `[1, 5]`); the read-error default is the fixed low-complexity signal. -/
theorem C8_image_signals_witness :
    ((analyzeImageComplexityR (some 1048576)).complexity =
      min ((1048576 : ℚ) / (2 * 1024 * 1024)) 1 ∧
    1 ≤ (analyzeImageComplexityR (some 1048576)).regions ∧
      (analyzeImageComplexityR (some 1048576)).regions ≤ 5) ∧
    analyzeImageComplexityR none = { complexity := 3/10, regions := 1, fileSize := 0 } :=
  ⟨⟨((C8_image_signals (some 1048576)).1 1048576 rfl).1,
    (C8_image_signals (some 1048576)).2.1.1, (C8_image_signals (some 1048576)).2.1.2⟩,
   (C8_image_signals none).2.2 rfl⟩

/-- C4: on any non-empty prediction list evaluated without a multi-object
context override (no image signals, or signals whose context analysis does
not report a likely multi-vegetable image), the verdict satisfies
`isUnknown = true` exactly when at least 3 of the 4 strict criteria
(top1 < 40; top1 − top2 gap < 15; diversity > 0.85; top1 < 30) hold AND
the top confidence is strictly below 40; in particular `isUnknown = true`
implies `top1.confidence < 40`. -/
theorem C4_unknown_iff_criteria (top : Prediction) (rest : List Prediction)
    (ia? : Option ImageAnalysis)
    (hctx : ∀ ia, ia? = some ia →
      (analyzeImageContextCore top rest ia).isLikelyMultiVegetable = false) :
    ∃ v, shouldClassifyAsUnknown (top :: rest) ia? = .ok v ∧
      (v.isUnknown = true ↔
        3 ≤ ((if top.confidence < 40 then 1 else 0) +
             (if top.confidence - secondConfidence rest < 15 then 1 else 0) +
             (if (85 : ℚ)/100 < calculatePredictionDiversity (top :: rest) then 1 else 0) +
             (if top.confidence < 30 then 1 else 0) : ℕ) ∧
          top.confidence < 40) ∧
      (v.isUnknown = true → top.confidence < 40) := by
  refine ⟨shouldClassifyAsUnknownCore top rest ia?, rfl, ?_⟩
  have hmain : shouldClassifyAsUnknownCore top rest ia? =
      (let confidenceGap := top.confidence - secondConfidence rest
       let predictionDiversity := calculatePredictionDiversity (top :: rest)
       let veryLowConfidence : Bool := decide (top.confidence < 40)
       let veryLowConfidenceGap : Bool := decide (confidenceGap < 15)
       let extremeDiversity : Bool := decide ((85 : ℚ)/100 < predictionDiversity)
       let noStrongPrediction : Bool := decide (top.confidence < 30)
       let uncertaintyScore : ℕ :=
         (if veryLowConfidence then 1 else 0) + (if veryLowConfidenceGap then 1 else 0) +
         (if extremeDiversity then 1 else 0) + (if noStrongPrediction then 1 else 0)
       { isUnknown := decide (3 ≤ uncertaintyScore) && decide (top.confidence < 40),
         uncertaintyScore := uncertaintyScore,
         confidence := top.confidence, diversity := predictionDiversity,
         confidenceGap := confidenceGap,
         contextAnalysis := ia?.map (analyzeImageContextCore top rest),
         bestGuessCls := top.cls, bestGuessConf := top.confidence }) := by
    cases ia? with
    | none => rfl
    | some ia =>
      have h := hctx ia rfl
      simp only [shouldClassifyAsUnknownCore, Option.map_some', h]
      rfl
  rw [hmain]
  constructor
  · simp only [Bool.and_eq_true, decide_eq_true_eq]
  · intro h
    have := (Bool.and_eq_true _ _).mp h
    exact of_decide_eq_true this.2

/-- C4 witness: the spec's own example `[{A,38},{B,25},{C,18}]` without
image signals: three criteria hold (top1 < 40, gap 13 < 15,
diversity 0.87 > 0.85) and top1 = 38 < 40, so the claim's biconditional
yields `isUnknown` and in particular forces `top1 < 40`. -/
theorem C4_unknown_iff_criteria_witness :
    ∃ v, shouldClassifyAsUnknown
        [⟨"A", 38⟩, ⟨"B", 25⟩, ⟨"C", 18⟩] none = .ok v ∧
      (v.isUnknown = true ↔
        3 ≤ ((if (⟨"A", (38 : ℚ)⟩ : Prediction).confidence < 40 then 1 else 0) +
             (if (⟨"A", (38 : ℚ)⟩ : Prediction).confidence -
                 secondConfidence [⟨"B", 25⟩, ⟨"C", 18⟩] < 15 then 1 else 0) +
             (if (85 : ℚ)/100 < calculatePredictionDiversity
                 [⟨"A", 38⟩, ⟨"B", 25⟩, ⟨"C", 18⟩] then 1 else 0) +
             (if (⟨"A", (38 : ℚ)⟩ : Prediction).confidence < 30 then 1 else 0) : ℕ) ∧
          (⟨"A", (38 : ℚ)⟩ : Prediction).confidence < 40) ∧
      (v.isUnknown = true → (⟨"A", (38 : ℚ)⟩ : Prediction).confidence < 40) :=
  C4_unknown_iff_criteria ⟨"A", 38⟩ [⟨"B", 25⟩, ⟨"C", 18⟩] none (fun ia h => by cases h)

/-- C5: whenever the multi-object context analysis (computed from the image
signals that the mode selector itself derives) reports a likely
multi-vegetable image, the unknown heuristic short-circuits to
`isUnknown = false` with uncertainty score 0 and the top prediction as
best guess, and `determineDetectionMode` returns the forced decision
`mode = multiple` with score 8 of maxScore 10 — never `single`. -/
theorem C5_multi_context_forces_multiple (fs? : Option ℕ) (top : Prediction)
    (rest : List Prediction)
    (h : (analyzeImageContextCore top rest
        (analyzeImageComplexityR fs?)).isLikelyMultiVegetable = true) :
    shouldClassifyAsUnknown (top :: rest) (some (analyzeImageComplexityR fs?)) =
      .ok { isUnknown := false, uncertaintyScore := 0, confidence := top.confidence,
            diversity := calculatePredictionDiversity (top :: rest),
            confidenceGap := top.confidence - secondConfidence rest,
            contextAnalysis :=
              some (analyzeImageContextCore top rest (analyzeImageComplexityR fs?)),
            bestGuessCls := top.cls, bestGuessConf := top.confidence } ∧
    determineDetectionMode fs? (.ok (top :: rest)) =
      { mode := .multiple, score := 8, maxScore := 10, fallback := false } := by
  constructor
  · simp only [shouldClassifyAsUnknown, shouldClassifyAsUnknownCore, Option.map_some', h]
    rfl
  · have hua : shouldClassifyAsUnknownCore top rest (some (analyzeImageComplexityR fs?)) =
        { isUnknown := false, uncertaintyScore := 0, confidence := top.confidence,
          diversity := calculatePredictionDiversity (top :: rest),
          confidenceGap := top.confidence - secondConfidence rest,
          contextAnalysis :=
            some (analyzeImageContextCore top rest (analyzeImageComplexityR fs?)),
          bestGuessCls := top.cls, bestGuessConf := top.confidence } := by
      simp only [shouldClassifyAsUnknownCore, Option.map_some', h]
      rfl
    have hcore : determineDetectionModeCore (analyzeImageComplexityR fs?) top rest =
        .ok { mode := .multiple, score := 8, maxScore := 10, fallback := false } := by
      simp only [determineDetectionModeCore, hua]
      simp [h]
    simp only [determineDetectionMode, hcore]

/-- C5 witness: a 2 MiB image with balanced known-vegetable predictions
`[{Tomate,40},{Carotte,35},{Pomme de terre,20}]` scores 14/14 on the
context indicators, so the unknown heuristic short-circuits and the mode
selector forces `multiple` at 8/10. -/
theorem C5_multi_context_forces_multiple_witness :
    shouldClassifyAsUnknown
        [⟨"Tomate", 40⟩, ⟨"Carotte", 35⟩, ⟨"Pomme de terre", 20⟩]
        (some (analyzeImageComplexityR (some 2097152))) =
      .ok { isUnknown := false, uncertaintyScore := 0, confidence := 40,
            diversity := calculatePredictionDiversity
              [⟨"Tomate", 40⟩, ⟨"Carotte", 35⟩, ⟨"Pomme de terre", 20⟩],
            confidenceGap := (40 : ℚ) - secondConfidence
              [⟨"Carotte", 35⟩, ⟨"Pomme de terre", 20⟩],
            contextAnalysis := some (analyzeImageContextCore ⟨"Tomate", 40⟩
              [⟨"Carotte", 35⟩, ⟨"Pomme de terre", 20⟩]
              (analyzeImageComplexityR (some 2097152))),
            bestGuessCls := "Tomate", bestGuessConf := 40 } ∧
    determineDetectionMode (some 2097152)
        (.ok [⟨"Tomate", 40⟩, ⟨"Carotte", 35⟩, ⟨"Pomme de terre", 20⟩]) =
      { mode := .multiple, score := 8, maxScore := 10, fallback := false } :=
  C5_multi_context_forces_multiple (some 2097152) ⟨"Tomate", 40⟩
    [⟨"Carotte", 35⟩, ⟨"Pomme de terre", 20⟩] (by decide)

/-! ## Lemmas about the aggregation map -/

theorem mapHas_eq_true_iff (m : VegMap) (k : String) :
    mapHas m k = true ↔ ∃ e ∈ m, e.1 = k := by
  simp [mapHas, List.any_eq_true]

theorem mapHas_eq_false_iff (m : VegMap) (k : String) :
    mapHas m k = false ↔ ∀ e ∈ m, e.1 ≠ k := by
  rw [← Bool.not_eq_true, mapHas_eq_true_iff]
  push_neg
  rfl

theorem mapGet_eq_none_iff (m : VegMap) (k : String) :
    mapGet m k = none ↔ ∀ e ∈ m, e.1 ≠ k := by
  simp [mapGet, List.find?_eq_none]

theorem mapHas_false_iff_mapGet_none (m : VegMap) (k : String) :
    mapHas m k = false ↔ mapGet m k = none := by
  rw [mapHas_eq_false_iff, mapGet_eq_none_iff]

theorem mapGet_mem (m : VegMap) (k : String) (v : DetectedVeg)
    (h : mapGet m k = some v) : (k, v) ∈ m := by
  simp only [mapGet, Option.map_eq_some'] at h
  obtain ⟨e, he, hv⟩ := h
  have h1 : e.1 = k := by simpa using List.find?_some he
  have h2 : e ∈ m := List.mem_of_find?_eq_some he
  have : e = (k, v) := by
    cases e
    simp_all
  rwa [this] at h2

theorem mapGet_of_mem_nodup (m : VegMap) (e : String × DetectedVeg)
    (hnd : (m.map Prod.fst).Nodup) (he : e ∈ m) : mapGet m e.1 = some e.2 := by
  induction m with
  | nil => cases he
  | cons a m ih =>
    simp only [List.map_cons, List.nodup_cons] at hnd
    rcases List.mem_cons.mp he with rfl | hm
    · simp [mapGet, List.find?_cons]
    · have hne : a.1 ≠ e.1 := fun h => hnd.1 (h ▸ List.mem_map_of_mem Prod.fst hm)
      simp only [mapGet, List.find?_cons]
      rw [decide_eq_false hne]
      exact ih hnd.2 hm

theorem find?_replace_self (m : VegMap) (k : String) (v : DetectedVeg)
    (hh : mapHas m k = true) :
    (m.map fun e => if e.1 = k then (k, v) else e).find?
      (fun e => decide (e.1 = k)) = some (k, v) := by
  induction m with
  | nil => simp [mapHas] at hh
  | cons a m ih =>
    by_cases ha : a.1 = k
    · simp [List.find?_cons, ha]
    · have hm : mapHas m k = true := by
        have h' := hh
        simp only [mapHas, List.any_cons, decide_eq_false ha, Bool.false_or] at h'
        exact h'
      simp only [List.map_cons, List.find?_cons, if_neg ha, decide_eq_false ha, cond_false]
      exact ih hm

theorem find?_replace_ne (m : VegMap) (k k' : String) (v : DetectedVeg)
    (hne : k' ≠ k) :
    (m.map fun e => if e.1 = k then (k, v) else e).find?
      (fun e => decide (e.1 = k')) = m.find? (fun e => decide (e.1 = k')) := by
  induction m with
  | nil => rfl
  | cons a m ih =>
    by_cases ha : a.1 = k
    · have h1 : ¬ ((k, v).1 = k') := fun h => hne ((h : k = k').symm)
      have h2 : ¬ (a.1 = k') := ha ▸ h1
      simp only [List.map_cons, List.find?_cons, if_pos ha,
        decide_eq_false h1, decide_eq_false h2, cond_false]
      exact ih
    · by_cases ha' : a.1 = k'
      · simp only [List.map_cons, List.find?_cons, if_neg ha, decide_eq_true ha']
      · simp only [List.map_cons, List.find?_cons, if_neg ha,
          decide_eq_false ha', cond_false]
        exact ih

theorem mapGet_mapSet_self (m : VegMap) (k : String) (v : DetectedVeg) :
    mapGet (mapSet m k v) k = some v := by
  unfold mapSet
  by_cases hh : mapHas m k = true
  · rw [if_pos hh]
    unfold mapGet
    rw [find?_replace_self m k v hh]
    rfl
  · rw [if_neg hh]
    rw [Bool.not_eq_true] at hh
    have hfind : m.find? (fun e => decide (e.1 = k)) = none :=
      List.find?_eq_none.mpr fun e he => by
        simpa using (mapHas_eq_false_iff m k).mp hh e he
    simp [mapGet, List.find?_append, hfind]

theorem mapGet_mapSet_ne (m : VegMap) (k k' : String) (v : DetectedVeg)
    (hne : k' ≠ k) : mapGet (mapSet m k v) k' = mapGet m k' := by
  unfold mapSet
  by_cases hh : mapHas m k = true
  · rw [if_pos hh]
    unfold mapGet
    rw [find?_replace_ne m k k' v hne]
  · rw [if_neg hh]
    simp only [mapGet, List.find?_append]
    have h1 : List.find? (fun e => decide (e.1 = k')) [(k, v)] = none := by
      simp [decide_eq_false (fun h => hne (h : k = k').symm : ¬ ((k, v).1 = k'))]
    rw [h1]
    cases m.find? fun e => decide (e.1 = k') <;> rfl

theorem mapGet_mapUpdate_self (m : VegMap) (k : String) (f : DetectedVeg → DetectedVeg) :
    mapGet (mapUpdate m k f) k = (mapGet m k).map f := by
  induction m with
  | nil => rfl
  | cons a m ih =>
    by_cases ha : a.1 = k
    · simp [mapUpdate, mapGet, List.find?_cons, ha]
    · simp only [mapUpdate, List.map_cons, mapGet, List.find?_cons, if_neg ha,
        decide_eq_false ha, cond_false] at *
      exact ih

theorem mapGet_mapUpdate_ne (m : VegMap) (k k' : String)
    (f : DetectedVeg → DetectedVeg) (hne : k' ≠ k) :
    mapGet (mapUpdate m k f) k' = mapGet m k' := by
  induction m with
  | nil => rfl
  | cons a m ih =>
    by_cases ha : a.1 = k
    · have h2 : ¬ (a.1 = k') := fun h => hne (ha ▸ h : k = k').symm
      have h1 : ¬ ((a.1, f a.2).1 = k') := h2
      simp only [mapUpdate, List.map_cons, mapGet, List.find?_cons, if_pos ha,
        decide_eq_false h1, decide_eq_false h2, cond_false] at *
      exact ih
    · by_cases ha' : a.1 = k'
      · simp only [mapUpdate, List.map_cons, mapGet, List.find?_cons, if_neg ha,
          decide_eq_true ha']
      · simp only [mapUpdate, List.map_cons, mapGet, List.find?_cons, if_neg ha,
          decide_eq_false ha', cond_false] at *
        exact ih

theorem mem_mapSet (m : VegMap) (k : String) (v : DetectedVeg)
    (e : String × DetectedVeg) (he : e ∈ mapSet m k v) :
    e = (k, v) ∨ (e ∈ m ∧ e.1 ≠ k) := by
  unfold mapSet at he
  by_cases hh : mapHas m k = true
  · rw [if_pos hh] at he
    obtain ⟨e', he', heq⟩ := List.mem_map.mp he
    by_cases ha : e'.1 = k
    · rw [if_pos ha] at heq
      exact Or.inl heq.symm
    · rw [if_neg ha] at heq
      exact Or.inr ⟨heq ▸ he', heq ▸ ha⟩
  · rw [if_neg hh] at he
    rw [Bool.not_eq_true] at hh
    rcases List.mem_append.mp he with hm | hone
    · exact Or.inr ⟨hm, (mapHas_eq_false_iff m k).mp hh e hm⟩
    · exact Or.inl (by simpa using hone)

theorem mem_mapUpdate (m : VegMap) (k : String) (f : DetectedVeg → DetectedVeg)
    (e : String × DetectedVeg) (he : e ∈ mapUpdate m k f) :
    ∃ e' ∈ m, (e'.1 = k ∧ e = (k, f e'.2)) ∨ (e'.1 ≠ k ∧ e = e') := by
  unfold mapUpdate at he
  obtain ⟨e', he', heq⟩ := List.mem_map.mp he
  refine ⟨e', he', ?_⟩
  by_cases ha : e'.1 = k
  · rw [if_pos ha] at heq
    exact Or.inl ⟨ha, by rw [← heq, ha]⟩
  · rw [if_neg ha] at heq
    exact Or.inr ⟨ha, heq.symm⟩

theorem keys_mapUpdate (m : VegMap) (k : String) (f : DetectedVeg → DetectedVeg) :
    (mapUpdate m k f).map Prod.fst = m.map Prod.fst := by
  induction m with
  | nil => rfl
  | cons a m ih =>
    simp only [mapUpdate, List.map_cons] at *
    by_cases ha : a.1 = k <;> simp [ha, ih]

theorem keys_replace (m : VegMap) (k : String) (v : DetectedVeg) :
    ((m.map fun e => if e.1 = k then (k, v) else e).map Prod.fst) = m.map Prod.fst := by
  induction m with
  | nil => rfl
  | cons a m ih =>
    simp only [List.map_cons]
    by_cases ha : a.1 = k <;> simp [ha, ih]

theorem keys_mapSet_of_has (m : VegMap) (k : String) (v : DetectedVeg)
    (h : mapHas m k = true) :
    (mapSet m k v).map Prod.fst = m.map Prod.fst := by
  unfold mapSet
  rw [if_pos h]
  exact keys_replace m k v

theorem keys_mapSet_of_not_has (m : VegMap) (k : String) (v : DetectedVeg)
    (h : ¬ (mapHas m k = true)) :
    (mapSet m k v).map Prod.fst = m.map Prod.fst ++ [k] := by
  unfold mapSet
  rw [if_neg h]
  simp

theorem nodup_keys_mapSet (m : VegMap) (k : String) (v : DetectedVeg)
    (h : (m.map Prod.fst).Nodup) : ((mapSet m k v).map Prod.fst).Nodup := by
  by_cases hh : mapHas m k = true
  · rw [keys_mapSet_of_has m k v hh]
    exact h
  · rw [keys_mapSet_of_not_has m k v hh]
    rw [List.nodup_append]
    refine ⟨h, List.nodup_singleton k, ?_⟩
    intro a ha hk
    rw [Bool.not_eq_true, mapHas_eq_false_iff] at hh
    obtain ⟨e, he, hek⟩ := List.mem_map.mp ha
    rcases List.mem_singleton.mp hk with rfl
    exact hh e he (hek.trans rfl)

theorem nodup_keys_mapUpdate (m : VegMap) (k : String) (f : DetectedVeg → DetectedVeg)
    (h : (m.map Prod.fst).Nodup) : ((mapUpdate m k f).map Prod.fst).Nodup := by
  rw [keys_mapUpdate]
  exact h

theorem typesMatch_mapSet (m : VegMap) (k : String) (v : DetectedVeg)
    (h : TypesMatch m) (hv : v.type = k) : TypesMatch (mapSet m k v) := by
  intro e he
  rcases mem_mapSet m k v e he with rfl | ⟨hm, _⟩
  · exact hv
  · exact h e hm

theorem typesMatch_mapUpdate (m : VegMap) (k : String) (f : DetectedVeg → DetectedVeg)
    (h : TypesMatch m) (hf : ∀ d, (f d).type = d.type) :
    TypesMatch (mapUpdate m k f) := by
  intro e he
  obtain ⟨e', he', hcase⟩ := mem_mapUpdate m k f e he
  rcases hcase with ⟨hk, heq⟩ | ⟨_, heq⟩
  · rw [heq]
    show (f e'.2).type = k
    rw [hf e'.2, h e' he', hk]
  · rw [heq]
    exact h e' he'

/-- Fold preservation of a predicate, with membership of the step element. -/
theorem foldl_preserve {α β : Type _} (P : β → Prop) (f : β → α → β) :
    ∀ (l : List α) (b : β), P b → (∀ b a, a ∈ l → P b → P (f b a)) → P (l.foldl f b) := by
  intro l
  induction l with
  | nil => intro b hb _; exact hb
  | cons a l ih =>
    intro b hb hstep
    exact ih (f b a) (hstep b a (List.mem_cons_self a l) hb)
      fun b' a' ha' hb' => hstep b' a' (List.mem_cons_of_mem a ha') hb'

/-! ## Invariants of result aggregation -/

theorem aggStep1Fun_inv (m : VegMap) (zr : ZoneResult)
    (h : (m.map Prod.fst).Nodup ∧ TypesMatch m) :
    ((aggStep1Fun m zr).map Prod.fst).Nodup ∧ TypesMatch (aggStep1Fun m zr) := by
  unfold aggStep1Fun
  by_cases hh : mapHas m zr.topVegetable.cls = true
  · rw [if_pos hh]
    exact ⟨nodup_keys_mapUpdate _ _ _ h.1, typesMatch_mapUpdate _ _ _ h.2 fun d => rfl⟩
  · rw [if_neg hh]
    exact ⟨nodup_keys_mapSet _ _ _ h.1, typesMatch_mapSet _ _ _ h.2 rfl⟩

theorem aggStep2Fun_inv (m : VegMap) (p : Prediction)
    (h : (m.map Prod.fst).Nodup ∧ TypesMatch m) :
    ((aggStep2Fun m p).map Prod.fst).Nodup ∧ TypesMatch (aggStep2Fun m p) := by
  unfold aggStep2Fun
  by_cases hk : knownVegetables.contains p.cls = true
  · rw [if_pos hk]
    by_cases hh : mapHas m p.cls = true
    · have : (!mapHas m p.cls) = false := by rw [hh]; rfl
      rw [if_neg (by simp [this])]
      refine ⟨nodup_keys_mapUpdate _ _ _ h.1, typesMatch_mapUpdate _ _ _ h.2 fun d => ?_⟩
      by_cases hc : p.confidence > d.confidence
      · rw [if_pos hc]
      · rw [if_neg hc]
    · have : (!mapHas m p.cls) = true := by
        rw [Bool.not_eq_true] at hh
        rw [hh]
        rfl
      rw [if_pos this]
      by_cases hc : p.confidence > 20
      · rw [if_pos hc]
        exact ⟨nodup_keys_mapSet _ _ _ h.1, typesMatch_mapSet _ _ _ h.2 rfl⟩
      · rw [if_neg hc]
        exact h
  · rw [if_neg hk]
    exact h

theorem aggMap_inv (globalResult : List Prediction) (zoneResults : List ZoneResult) :
    ((aggMap globalResult zoneResults).map Prod.fst).Nodup ∧
      TypesMatch (aggMap globalResult zoneResults) := by
  have h1 : ((aggStep1 zoneResults).map Prod.fst).Nodup ∧ TypesMatch (aggStep1 zoneResults) := by
    unfold aggStep1
    exact foldl_preserve _ aggStep1Fun zoneResults []
      ⟨List.nodup_nil, fun e he => absurd he (List.not_mem_nil e)⟩
      fun m zr _ hm => aggStep1Fun_inv m zr hm
  have h2 : ((aggStep2 globalResult (aggStep1 zoneResults)).map Prod.fst).Nodup ∧
      TypesMatch (aggStep2 globalResult (aggStep1 zoneResults)) := by
    unfold aggStep2
    exact foldl_preserve _ aggStep2Fun globalResult _ h1
      fun m p _ hm => aggStep2Fun_inv m p hm
  rcases globalResult with _ | ⟨dominantGlobal, rest⟩
  · exact h2
  · simp only [aggMap]
    by_cases hd : dominantGlobal.confidence > 60 ∧
        mapHas (aggStep2 (dominantGlobal :: rest) (aggStep1 zoneResults))
          dominantGlobal.cls = false
    · rw [if_pos hd]
      exact ⟨nodup_keys_mapSet _ _ _ h2.1, typesMatch_mapSet _ _ _ h2.2 rfl⟩
    · rw [if_neg hd]
      exact h2

theorem pairwise_types_of_inv :
    ∀ (m : VegMap), (m.map Prod.fst).Nodup → TypesMatch m →
      (m.map Prod.snd).Pairwise fun a b => a.type ≠ b.type := by
  intro m
  induction m with
  | nil => intro _ _; exact List.Pairwise.nil
  | cons a m ih =>
    intro hnd ht
    simp only [List.map_cons, List.nodup_cons] at hnd
    refine List.Pairwise.cons ?_ (ih hnd.2 fun e he => ht e (List.mem_cons_of_mem a he))
    intro b hb
    obtain ⟨e, he, hbe⟩ := List.mem_map.mp hb
    have h1 : a.2.type = a.1 := ht a (List.mem_cons_self a m)
    have h2 : e.2.type = e.1 := ht e (List.mem_cons_of_mem a he)
    rw [h1, ← hbe, h2]
    intro hcontra
    exact hnd.1 (hcontra ▸ List.mem_map_of_mem Prod.fst he)

theorem sortDetected_perm (l : List DetectedVeg) : (sortDetected l).Perm l :=
  List.perm_insertionSort _ l

/-- C9: result aggregation never emits two `DetectedObject`s with the same
category — each category appears at most once in the returned list. -/
theorem C9_aggregation_dedup (globalResult : List Prediction)
    (zoneResults : List ZoneResult) (l : List DetectedVeg)
    (h : aggregateResults globalResult zoneResults = .ok l) :
    l.Pairwise fun a b => a.type ≠ b.type := by
  match globalResult with
  | [] => exact absurd h (by simp [aggregateResults])
  | g :: gs =>
    have hl : l = sortDetected ((aggMap (g :: gs) zoneResults).map Prod.snd) := by
      have := h
      simp only [aggregateResults] at this
      exact (Except.ok.injEq _ _).mp this.symm |>.symm ▸ rfl
    obtain ⟨hnd, ht⟩ := aggMap_inv (g :: gs) zoneResults
    have hp := pairwise_types_of_inv _ hnd ht
    have hsym : ∀ {x y : DetectedVeg}, x.type ≠ y.type → y.type ≠ x.type :=
      fun hxy hyx => hxy hyx.symm
    rw [hl]
    exact (List.Perm.pairwise_iff hsym (sortDetected_perm _)).mpr hp

/-- C9 witness: a concrete aggregation (global `[{Tomate, 70}]`, no zone
results) yields a single detection, trivially category-distinct. -/
theorem C9_aggregation_dedup_witness :
    ([{ type := "Tomate", confidence := 70, positions := ["global"],
        detectionMethod := "global-weak" }] : List DetectedVeg).Pairwise
      (fun a b => a.type ≠ b.type) :=
  C9_aggregation_dedup [⟨"Tomate", 70⟩] [] _ rfl

/-! ## Confidence bounds through aggregation -/

theorem aggStep1Fun_conf_ge (m : VegMap) (zr : ZoneResult)
    (hzr : 30 ≤ zr.topVegetable.confidence)
    (h : ∀ e ∈ m, 30 ≤ e.2.confidence) :
    ∀ e ∈ aggStep1Fun m zr, 30 ≤ e.2.confidence := by
  intro e he
  unfold aggStep1Fun at he
  by_cases hh : mapHas m zr.topVegetable.cls = true
  · rw [if_pos hh] at he
    obtain ⟨e', he', hc⟩ := mem_mapUpdate _ _ _ _ he
    rcases hc with ⟨hk, heq⟩ | ⟨_, heq⟩
    · rw [heq]
      exact le_trans (h e' he') (le_max_left _ _)
    · rw [heq]
      exact h e' he'
  · rw [if_neg hh] at he
    rcases mem_mapSet _ _ _ _ he with heq | ⟨hm, _⟩
    · rw [heq]
      exact hzr
    · exact h _ hm

theorem aggStep2Fun_conf_ge (m : VegMap) (p : Prediction)
    (h : ∀ e ∈ m, 30 ≤ e.2.confidence) :
    ∀ e ∈ aggStep2Fun m p, 30 ≤ e.2.confidence := by
  intro e he
  unfold aggStep2Fun at he
  by_cases hk : knownVegetables.contains p.cls = true
  · rw [if_pos hk] at he
    by_cases hh : (!mapHas m p.cls) = true
    · rw [if_pos hh] at he
      by_cases hc : p.confidence > 20
      · rw [if_pos hc] at he
        rcases mem_mapSet _ _ _ _ he with heq | ⟨hm, _⟩
        · rw [heq]
          exact le_max_right _ _
        · exact h _ hm
      · rw [if_neg hc] at he
        exact h _ he
    · rw [if_neg hh] at he
      obtain ⟨e', he', hc⟩ := mem_mapUpdate _ _ _ _ he
      rcases hc with ⟨hk', heq⟩ | ⟨_, heq⟩
      · rw [heq]
        show (30 : ℚ) ≤ (if p.confidence > e'.2.confidence then _ else e'.2).confidence
        by_cases hgt : p.confidence > e'.2.confidence
        · rw [if_pos hgt]
          exact le_of_lt (lt_of_le_of_lt (h e' he') hgt)
        · rw [if_neg hgt]
          exact h e' he'
      · rw [heq]
        exact h e' he'
  · rw [if_neg hk] at he
    exact h _ he

theorem aggMap_conf_ge (globalResult : List Prediction) (zoneResults : List ZoneResult)
    (hz : ∀ zr ∈ zoneResults, 30 ≤ zr.topVegetable.confidence) :
    ∀ e ∈ aggMap globalResult zoneResults, 30 ≤ e.2.confidence := by
  have h1 : ∀ e ∈ aggStep1 zoneResults, 30 ≤ e.2.confidence := by
    unfold aggStep1
    exact foldl_preserve (fun m => ∀ e ∈ m, 30 ≤ e.2.confidence) aggStep1Fun
      zoneResults [] (fun e he => absurd he (List.not_mem_nil e))
      fun m zr hzr hm => aggStep1Fun_conf_ge m zr (hz zr hzr) hm
  have h2 : ∀ e ∈ aggStep2 globalResult (aggStep1 zoneResults), 30 ≤ e.2.confidence := by
    unfold aggStep2
    exact foldl_preserve (fun m => ∀ e ∈ m, 30 ≤ e.2.confidence) aggStep2Fun
      globalResult _ h1 fun m p _ hm => aggStep2Fun_conf_ge m p hm
  rcases globalResult with _ | ⟨dominantGlobal, rest⟩
  · exact h2
  · simp only [aggMap]
    by_cases hd : dominantGlobal.confidence > 60 ∧
        mapHas (aggStep2 (dominantGlobal :: rest) (aggStep1 zoneResults))
          dominantGlobal.cls = false
    · rw [if_pos hd]
      intro e he
      rcases mem_mapSet _ _ _ _ he with heq | ⟨hm, _⟩
      · rw [heq]
        exact le_of_lt (lt_of_le_of_lt (by norm_num) hd.1)
      · exact h2 _ hm
    · rw [if_neg hd]
      exact h2

theorem aggStep1Fun_conf_le (B : String → ℚ) (m : VegMap) (zr : ZoneResult)
    (hzr : zr.topVegetable.confidence ≤ B zr.topVegetable.cls)
    (h : ∀ e ∈ m, e.2.confidence ≤ B e.1) :
    ∀ e ∈ aggStep1Fun m zr, e.2.confidence ≤ B e.1 := by
  intro e he
  unfold aggStep1Fun at he
  by_cases hh : mapHas m zr.topVegetable.cls = true
  · rw [if_pos hh] at he
    obtain ⟨e', he', hc⟩ := mem_mapUpdate _ _ _ _ he
    rcases hc with ⟨hk, heq⟩ | ⟨_, heq⟩
    · rw [heq]
      show max e'.2.confidence zr.topVegetable.confidence ≤ B zr.topVegetable.cls
      exact max_le (hk ▸ h e' he') hzr
    · rw [heq]
      exact h e' he'
  · rw [if_neg hh] at he
    rcases mem_mapSet _ _ _ _ he with heq | ⟨hm, _⟩
    · rw [heq]
      exact hzr
    · exact h _ hm

theorem aggStep2Fun_conf_le (B : String → ℚ) (m : VegMap) (p : Prediction)
    (h30 : ∀ c, 30 ≤ B c) (hp : p.confidence ≤ B p.cls)
    (h : ∀ e ∈ m, e.2.confidence ≤ B e.1) :
    ∀ e ∈ aggStep2Fun m p, e.2.confidence ≤ B e.1 := by
  intro e he
  unfold aggStep2Fun at he
  by_cases hk : knownVegetables.contains p.cls = true
  · rw [if_pos hk] at he
    by_cases hh : (!mapHas m p.cls) = true
    · rw [if_pos hh] at he
      by_cases hc : p.confidence > 20
      · rw [if_pos hc] at he
        rcases mem_mapSet _ _ _ _ he with heq | ⟨hm, _⟩
        · rw [heq]
          exact max_le hp (h30 _)
        · exact h _ hm
      · rw [if_neg hc] at he
        exact h _ he
    · rw [if_neg hh] at he
      obtain ⟨e', he', hc⟩ := mem_mapUpdate _ _ _ _ he
      rcases hc with ⟨hk', heq⟩ | ⟨_, heq⟩
      · rw [heq]
        show (if p.confidence > e'.2.confidence then _ else e'.2).confidence ≤ B p.cls
        by_cases hgt : p.confidence > e'.2.confidence
        · rw [if_pos hgt]
          exact hp
        · rw [if_neg hgt]
          exact hk' ▸ h e' he'
      · rw [heq]
        exact h e' he'
  · rw [if_neg hk] at he
    exact h _ he

theorem aggMap_conf_le (B : String → ℚ) (globalResult : List Prediction)
    (zoneResults : List ZoneResult) (h30 : ∀ c, 30 ≤ B c)
    (hz : ∀ zr ∈ zoneResults, zr.topVegetable.confidence ≤ B zr.topVegetable.cls)
    (hg : ∀ p ∈ globalResult, p.confidence ≤ B p.cls) :
    ∀ e ∈ aggMap globalResult zoneResults, e.2.confidence ≤ B e.1 := by
  have h1 : ∀ e ∈ aggStep1 zoneResults, e.2.confidence ≤ B e.1 := by
    unfold aggStep1
    exact foldl_preserve (fun m => ∀ e ∈ m, e.2.confidence ≤ B e.1) aggStep1Fun
      zoneResults [] (fun e he => absurd he (List.not_mem_nil e))
      fun m zr hzr hm => aggStep1Fun_conf_le B m zr (hz zr hzr) hm
  have h2 : ∀ e ∈ aggStep2 globalResult (aggStep1 zoneResults),
      e.2.confidence ≤ B e.1 := by
    unfold aggStep2
    exact foldl_preserve (fun m => ∀ e ∈ m, e.2.confidence ≤ B e.1) aggStep2Fun
      globalResult _ h1 fun m p hpm hm => aggStep2Fun_conf_le B m p h30 (hg p hpm) hm
  rcases hG : globalResult with _ | ⟨dominantGlobal, rest⟩
  · rw [hG] at h2
    exact h2
  · rw [hG] at h2
    simp only [aggMap]
    by_cases hd : dominantGlobal.confidence > 60 ∧
        mapHas (aggStep2 (dominantGlobal :: rest) (aggStep1 zoneResults))
          dominantGlobal.cls = false
    · rw [if_pos hd]
      intro e he
      rcases mem_mapSet _ _ _ _ he with heq | ⟨hm, _⟩
      · rw [heq]
        exact hg dominantGlobal (hG ▸ List.mem_cons_self _ _)
      · exact h2 _ hm
    · rw [if_neg hd]
      exact h2

/-! ## Contributing confidences of the multi-object pipeline -/

theorem le_maxConfFor (c : String) (preds : List Prediction) (p : Prediction)
    (hp : p ∈ preds) (hc : p.cls = c) : p.confidence ≤ maxConfFor c preds := by
  induction preds with
  | nil => cases hp
  | cons a l ih =>
    rcases List.mem_cons.mp hp with rfl | hm
    · simp only [maxConfFor, List.foldr_cons, if_pos hc]
      exact le_max_left _ _
    · have hrec := ih hm
      simp only [maxConfFor, List.foldr_cons]
      by_cases ha : a.cls = c
      · rw [if_pos ha]
        exact le_trans hrec (le_max_right _ _)
      · rw [if_neg ha]
        exact hrec

theorem maxConfFor_le_contribMax (c : String) (globalResult : List Prediction)
    (zc : ℕ → Except String (List Prediction)) (n : ℕ) :
    maxConfFor c globalResult ≤ contribMax c globalResult zc n := by
  unfold contribMax
  induction List.range n with
  | nil => exact le_refl _
  | cons i l ih =>
    simp only [List.foldr_cons]
    rcases zc i with e | zp
    · exact ih
    · exact le_trans ih (le_max_right _ _)

theorem zone_le_contribMax (c : String) (globalResult : List Prediction)
    (zc : ℕ → Except String (List Prediction)) (n i : ℕ) (zp : List Prediction)
    (hi : i < n) (hzc : zc i = .ok zp) :
    maxConfFor c zp ≤ contribMax c globalResult zc n := by
  unfold contribMax
  have hi' : i ∈ List.range n := List.mem_range.mpr hi
  have hmono : ∀ (l : List ℕ) (acc : ℚ), acc ≤ l.foldr
      (fun j acc =>
        match zc j with
        | .ok zp => max (maxConfFor c zp) acc
        | .error _ => acc) acc := by
    intro l
    induction l with
    | nil => intro acc; exact le_refl _
    | cons j l ihl =>
      intro acc
      simp only [List.foldr_cons]
      rcases zc j with e | zp'
      · exact ihl acc
      · exact le_trans (ihl acc) (le_max_right _ _)
  revert hi'
  induction List.range n with
  | nil => intro h; cases h
  | cons j l ihl =>
    intro hi'
    simp only [List.foldr_cons]
    rcases List.mem_cons.mp hi' with rfl | hm
    · rw [hzc]
      exact le_max_left _ _
    · have := ihl hm
      rcases zc j with e | zp'
      · exact this
      · exact le_trans this (le_max_right _ _)

theorem mem_zoneFilter (zp : List Prediction) (p : Prediction)
    (h : p ∈ zoneFilter zp) :
    p ∈ zp ∧ vegetableThreshold p.cls < p.confidence := by
  have := List.mem_filter.mp h
  exact ⟨this.1, by simpa using this.2⟩

theorem vegetableThreshold_ge_35 (c : String) : 35 ≤ vegetableThreshold c := by
  unfold vegetableThreshold
  split_ifs <;> norm_num

theorem buildZoneResults_forall (zc : ℕ → Except String (List Prediction)) (n : ℕ)
    (Motive : ZoneResult → Prop)
    (hnew : ∀ i, i < n → ∀ zp top rest, zc i = .ok zp →
      zoneFilter zp = top :: rest →
      Motive ⟨ZoneId.num (i + 1), top :: rest, top⟩) :
    ∀ zr ∈ buildZoneResults zc n, Motive zr := by
  unfold buildZoneResults
  refine foldl_preserve (fun acc => ∀ zr ∈ acc, Motive zr) _ (List.range n) []
    (fun zr h => absurd h (List.not_mem_nil zr)) ?_
  intro acc i hi hacc
  have hin : i < n := List.mem_range.mp hi
  rcases hzc : zc i with e | zp
  · exact hacc
  · show ∀ zr ∈ (match zoneFilter zp with
        | [] => acc
        | top :: rest =>
          acc ++ [(⟨ZoneId.num (i + 1), top :: rest, top⟩ : ZoneResult)]), Motive zr
    rcases hzf : zoneFilter zp with _ | ⟨top, rest⟩
    · exact hacc
    · intro zr hzr
      rcases List.mem_append.mp hzr with hm | hone
      · exact hacc zr hm
      · rw [List.mem_singleton.mp hone]
        exact hnew i hin zp top rest hzc hzf

theorem mem_includeWeak (globalResult : List Prediction) (zoneResults : List ZoneResult)
    (zr : ZoneResult) (h : zr ∈ includeWeakButKnownVegetables globalResult zoneResults) :
    zr ∈ zoneResults ∨ ∃ p ∈ globalResult,
      zr = ⟨ZoneId.globalRecovery, [p], { p with confidence := max p.confidence 30 }⟩ := by
  unfold includeWeakButKnownVegetables at h
  rcases List.mem_append.mp h with h1 | h2
  · exact Or.inl h1
  · obtain ⟨p, hp, heq⟩ := List.mem_map.mp h2
    exact Or.inr ⟨p, (List.mem_filter.mp hp).1, heq.symm⟩

/-- C1 (counterexample): the `global-weak` recovery floors a detection at
confidence 30 even when every contributing confidence for its category is
lower.  With global predictions `[{Tomate,70},{Carotte,22}]` and one zone
detecting Tomate at 70, the aggregation emits Carotte with confidence 30,
exceeding the maximum confidence (22) any contributing zone prediction or
global prediction reported for Carotte. -/
theorem C1_counterexample :
    ¬ (∀ l, aggregateResults [⟨"Tomate", 70⟩, ⟨"Carotte", 22⟩]
        (includeWeakButKnownVegetables [⟨"Tomate", 70⟩, ⟨"Carotte", 22⟩]
          [⟨ZoneId.num 1, [⟨"Tomate", 70⟩], ⟨"Tomate", 70⟩⟩]) = .ok l →
      ∀ d ∈ l, d.confidence ≤
        max (maxConfFor d.type [⟨"Tomate", 70⟩, ⟨"Carotte", 22⟩])
          (maxConfFor d.type
            (([⟨ZoneId.num 1, [⟨"Tomate", 70⟩], ⟨"Tomate", 70⟩⟩] :
                List ZoneResult).flatMap fun zr => zr.vegetables))) := by
  intro hall
  have heq : aggregateResults [⟨"Tomate", 70⟩, ⟨"Carotte", 22⟩]
      (includeWeakButKnownVegetables [⟨"Tomate", 70⟩, ⟨"Carotte", 22⟩]
        [⟨ZoneId.num 1, [⟨"Tomate", 70⟩], ⟨"Tomate", 70⟩⟩]) =
      .ok ([⟨"Tomate", 70, ["zone_1"], "zone"⟩,
            ⟨"Carotte", 30, ["global"], "global-weak"⟩] : List DetectedVeg) := by decide
  have hmem : (⟨"Carotte", 30, ["global"], "global-weak"⟩ : DetectedVeg) ∈
      ([⟨"Tomate", 70, ["zone_1"], "zone"⟩,
        ⟨"Carotte", 30, ["global"], "global-weak"⟩] : List DetectedVeg) := by decide
  have hbound := hall _ heq _ hmem
  exact absurd hbound (by decide)

/-- C1 (amended): for every DetectedObject of the multi-object pipeline,
its confidence never exceeds `max(30, M)` where `M` is the maximum
confidence reported for its category by any contributing zone
classification or by the global prediction list — the only way the output
can exceed every contributing confidence is the fixed recovery floor 30. -/
theorem C1_amended_conf_bound (globalResult : List Prediction)
    (zc : ℕ → Except String (List Prediction)) (n : ℕ) (l : List DetectedVeg)
    (hagg : aggregateResults globalResult
      (includeWeakButKnownVegetables globalResult (buildZoneResults zc n)) = .ok l) :
    ∀ d ∈ l, d.confidence ≤ max 30 (contribMax d.type globalResult zc n) := by
  rcases hG : globalResult with _ | ⟨g, gs⟩
  · rw [hG] at hagg
    exact absurd hagg (by simp [aggregateResults])
  · rw [hG] at hagg
    have hB30 : ∀ c, (30 : ℚ) ≤ max 30 (contribMax c (g :: gs) zc n) :=
      fun c => le_max_left _ _
    have hg : ∀ p ∈ (g :: gs), p.confidence ≤ max 30 (contribMax p.cls (g :: gs) zc n) :=
      fun p hp => le_trans
        (le_trans (le_maxConfFor p.cls (g :: gs) p hp rfl)
          (maxConfFor_le_contribMax p.cls (g :: gs) zc n))
        (le_max_right _ _)
    have hzonesRaw : ∀ zr ∈ buildZoneResults zc n,
        zr.topVegetable.confidence ≤
          max 30 (contribMax zr.topVegetable.cls (g :: gs) zc n) := by
      refine buildZoneResults_forall zc n _ ?_
      intro i hin zp top rest hzc hzf
      show top.confidence ≤ max 30 (contribMax top.cls (g :: gs) zc n)
      have htop : top ∈ zoneFilter zp := hzf ▸ List.mem_cons_self top rest
      have hin' := (mem_zoneFilter zp top htop).1
      exact le_trans
        (le_trans (le_maxConfFor top.cls zp top hin' rfl)
          (zone_le_contribMax top.cls (g :: gs) zc n i zp hin hzc))
        (le_max_right _ _)
    have hz : ∀ zr ∈ includeWeakButKnownVegetables (g :: gs) (buildZoneResults zc n),
        zr.topVegetable.confidence ≤
          max 30 (contribMax zr.topVegetable.cls (g :: gs) zc n) := by
      intro zr hzr
      rcases mem_includeWeak _ _ _ hzr with hm | ⟨p, hp, heq⟩
      · exact hzonesRaw zr hm
      · rw [heq]
        show max p.confidence 30 ≤ max 30 (contribMax p.cls (g :: gs) zc n)
        exact max_le (hg p hp) (le_max_left _ _)
    have hmap := aggMap_conf_le _ (g :: gs)
      (includeWeakButKnownVegetables (g :: gs) (buildZoneResults zc n)) hB30 hz hg
    have hl : l = sortDetected ((aggMap (g :: gs)
        (includeWeakButKnownVegetables (g :: gs) (buildZoneResults zc n))).map
          Prod.snd) := by
      have := hagg
      simp only [aggregateResults, Except.ok.injEq] at this
      exact this.symm
    intro d hd
    rw [hl] at hd
    have hd' := (sortDetected_perm _).mem_iff.mp hd
    obtain ⟨e, he, hde⟩ := List.mem_map.mp hd'
    have htype := (aggMap_inv (g :: gs)
      (includeWeakButKnownVegetables (g :: gs) (buildZoneResults zc n))).2 e he
    rw [← hde]
    calc e.2.confidence ≤ max 30 (contribMax e.1 (g :: gs) zc n) := hmap e he
    _ = max 30 (contribMax e.2.type (g :: gs) zc n) := by rw [htype]

/-- C1 (amended) witness: global `[{Tomate, 26}]` with no zones produces the
recovery detection Tomate at confidence 30, within `max(30, 26) = 30`. -/
theorem C1_amended_conf_bound_witness :
    (30 : ℚ) ≤ max 30 (contribMax "Tomate" [⟨"Tomate", 26⟩]
      (fun _ => .error "classifier failed") 0) :=
  C1_amended_conf_bound [⟨"Tomate", 26⟩] (fun _ => .error "classifier failed") 0
    [⟨"Tomate", 30, ["zone_global_recovery"], "global-recovery"⟩] rfl
    ⟨"Tomate", 30, ["zone_global_recovery"], "global-recovery"⟩
    (List.mem_cons_self _ _)

/-! ## The per-object unknown re-evaluation of the multi path -/

theorem enrichVeg_isOk (v : DetectedVeg) : ∃ ev, enrichVeg v = .ok ev := ⟨_, rfl⟩

theorem mock_core_isUnknown_false (v : DetectedVeg) (hv : 30 ≤ v.confidence) :
    (shouldClassifyAsUnknownCore ⟨v.type, v.confidence⟩
      [⟨"Tomate", max 0 (v.confidence - 20)⟩, ⟨"Carotte", max 0 (v.confidence - 30)⟩]
      none).isUnknown = false := by
  have h20 : max (0 : ℚ) (v.confidence - 20) = v.confidence - 20 :=
    max_eq_right (by linarith)
  show (decide (3 ≤ (((if decide (v.confidence < 40) = true then 1 else 0) +
      (if decide (v.confidence - secondConfidence
        [⟨"Tomate", max 0 (v.confidence - 20)⟩,
         ⟨"Carotte", max 0 (v.confidence - 30)⟩] < 15) = true then 1 else 0)) +
      (if decide ((85 : ℚ)/100 < calculatePredictionDiversity
        (⟨v.type, v.confidence⟩ ::
          [⟨"Tomate", max 0 (v.confidence - 20)⟩,
           ⟨"Carotte", max 0 (v.confidence - 30)⟩])) = true then 1 else 0) +
      (if decide (v.confidence < 30) = true then 1 else 0) : ℕ)) &&
    decide (v.confidence < 40)) = false
  have hsec : secondConfidence
      [⟨"Tomate", max 0 (v.confidence - 20)⟩,
       ⟨"Carotte", max 0 (v.confidence - 30)⟩] = v.confidence - 20 := h20
  have hgap : v.confidence - secondConfidence
      [⟨"Tomate", max 0 (v.confidence - 20)⟩,
       ⟨"Carotte", max 0 (v.confidence - 30)⟩] = 20 := by
    rw [hsec]
    ring
  have hdiv : calculatePredictionDiversity
      (⟨v.type, v.confidence⟩ ::
        [⟨"Tomate", max 0 (v.confidence - 20)⟩,
         ⟨"Carotte", max 0 (v.confidence - 30)⟩]) = 4/5 := by
    show max 0 (min 1 (1 - (v.confidence - max 0 (v.confidence - 20)) / 100)) = 4/5
    rw [h20]
    have harith : v.confidence - (v.confidence - 20) = 20 := by ring
    rw [harith]
    norm_num
  rw [hgap, hdiv]
  rw [decide_eq_false (by norm_num : ¬ ((20 : ℚ) < 15)),
    decide_eq_false (by norm_num : ¬ ((85 : ℚ)/100 < 4/5)),
    decide_eq_false (not_lt.mpr hv)]
  by_cases hc40 : v.confidence < 40
  · rw [decide_eq_true hc40]
    norm_num
  · rw [decide_eq_false hc40]
    norm_num

theorem enrichVeg_isUnknown_false (v : DetectedVeg) (hv : 30 ≤ v.confidence)
    (ev : EnrichedVeg) (hev : enrichVeg v = .ok ev) : ev.isUnknown = false := by
  have hcore := mock_core_isUnknown_false v hv
  have heq : enrichVeg v = .ok
      { name := if (shouldClassifyAsUnknownCore ⟨v.type, v.confidence⟩
            [⟨"Tomate", max 0 (v.confidence - 20)⟩,
             ⟨"Carotte", max 0 (v.confidence - 30)⟩] none).isUnknown then
          "unknown_vegetable" else jsNameOf v.type,
        displayName := if (shouldClassifyAsUnknownCore ⟨v.type, v.confidence⟩
            [⟨"Tomate", max 0 (v.confidence - 20)⟩,
             ⟨"Carotte", max 0 (v.confidence - 30)⟩] none).isUnknown then
          "Légume non reconnu" else v.type,
        confidence := if (shouldClassifyAsUnknownCore ⟨v.type, v.confidence⟩
            [⟨"Tomate", max 0 (v.confidence - 20)⟩,
             ⟨"Carotte", max 0 (v.confidence - 30)⟩] none).isUnknown then
          0 else v.confidence,
        positions := v.positions, detectionMethod := v.detectionMethod,
        isUnknown := (shouldClassifyAsUnknownCore ⟨v.type, v.confidence⟩
            [⟨"Tomate", max 0 (v.confidence - 20)⟩,
             ⟨"Carotte", max 0 (v.confidence - 30)⟩] none).isUnknown } := rfl
  rw [heq] at hev
  have := (Except.ok.injEq _ _).mp hev
  rw [← this]
  exact hcore

theorem enrichAll_isOk (l : List DetectedVeg) : ∃ out, enrichAll l = .ok out := by
  induction l with
  | nil => exact ⟨[], rfl⟩
  | cons v rest ih =>
    obtain ⟨ev, hev⟩ := enrichVeg_isOk v
    obtain ⟨out, hout⟩ := ih
    refine ⟨ev :: out, ?_⟩
    simp only [enrichAll, hev, hout]

theorem enrichAll_mem (l : List DetectedVeg) (out : List EnrichedVeg)
    (h : enrichAll l = .ok out) (ev : EnrichedVeg) (hev : ev ∈ out) :
    ∃ v ∈ l, enrichVeg v = .ok ev := by
  induction l generalizing out with
  | nil =>
    simp only [enrichAll, Except.ok.injEq] at h
    rw [← h] at hev
    cases hev
  | cons v rest ih =>
    obtain ⟨ev0, hv0⟩ := enrichVeg_isOk v
    rcases hrest : enrichAll rest with e | outs
    · simp only [enrichAll, hv0, hrest] at h
      exact Except.noConfusion h
    · simp only [enrichAll, hv0, hrest, Except.ok.injEq] at h
      rw [← h] at hev
      rcases List.mem_cons.mp hev with rfl | hm
      · exact ⟨v, List.mem_cons_self v rest, hv0⟩
      · obtain ⟨v', hv', hev'⟩ := ih outs hrest hm
        exact ⟨v', List.mem_cons_of_mem v hv', hev'⟩

/-! ## Inversion of the detector pipeline -/

theorem mem_aggregateResults (globalResult : List Prediction)
    (zoneResults : List ZoneResult) (l : List DetectedVeg) (d : DetectedVeg)
    (hagg : aggregateResults globalResult zoneResults = .ok l) (hd : d ∈ l) :
    ∃ e ∈ aggMap globalResult zoneResults, e.2 = d := by
  rcases globalResult with _ | ⟨g, gs⟩
  · exact absurd hagg (by simp [aggregateResults])
  · have hl : l = sortDetected ((aggMap (g :: gs) zoneResults).map Prod.snd) := by
      have := hagg
      simp only [aggregateResults, Except.ok.injEq] at this
      exact this.symm
    rw [hl] at hd
    have hd' := (sortDetected_perm _).mem_iff.mp hd
    obtain ⟨e, he, hde⟩ := List.mem_map.mp hd'
    exact ⟨e, he, hde⟩

theorem aggregateResults_conf_ge (globalResult : List Prediction)
    (zoneResults : List ZoneResult) (l : List DetectedVeg)
    (hz : ∀ zr ∈ zoneResults, 30 ≤ zr.topVegetable.confidence)
    (hagg : aggregateResults globalResult zoneResults = .ok l) :
    ∀ d ∈ l, 30 ≤ d.confidence := by
  intro d hd
  obtain ⟨e, he, hde⟩ := mem_aggregateResults globalResult zoneResults l d hagg hd
  rw [← hde]
  exact aggMap_conf_ge globalResult zoneResults hz e he

theorem pipelineZones_conf_ge (globalResult : List Prediction)
    (zc : ℕ → Except String (List Prediction)) (n : ℕ) :
    ∀ zr ∈ includeWeakButKnownVegetables globalResult (buildZoneResults zc n),
      30 ≤ zr.topVegetable.confidence := by
  intro zr hzr
  rcases mem_includeWeak _ _ _ hzr with hm | ⟨p, _, heq⟩
  · refine buildZoneResults_forall zc n
      (fun zr => 30 ≤ zr.topVegetable.confidence) ?_ zr hm
    intro i _ zp top rest hzc hzf
    show (30 : ℚ) ≤ top.confidence
    have htop : top ∈ zoneFilter zp := hzf ▸ List.mem_cons_self top rest
    have hth := (mem_zoneFilter zp top htop).2
    have h35 := vegetableThreshold_ge_35 top.cls
    linarith
  · rw [heq]
    exact le_max_right _ _

theorem detect_ok_inv (w h : ℕ) (ex : ℕ → ℕ → Bool)
    (gc : Except String (List Prediction))
    (zc : ℕ → Except String (List Prediction)) (m : MultiResult)
    (hm : detectMultipleVegetables w h ex gc zc = .ok m) :
    ∃ preds zones, gc = .ok preds ∧ createImageGrid w h ex = .ok zones ∧
      m.allPredictions = preds ∧
      aggregateResults preds (includeWeakButKnownVegetables preds
        (buildZoneResults zc zones.length)) = .ok m.detected := by
  cases gc with
  | error e => simp [detectMultipleVegetables] at hm
  | ok preds =>
    cases hgrid : createImageGrid w h ex with
    | error e =>
      simp only [detectMultipleVegetables, hgrid] at hm
      exact Except.noConfusion hm
    | ok zones =>
      cases hagg : aggregateResults preds (includeWeakButKnownVegetables preds
          (buildZoneResults zc zones.length)) with
      | error e =>
        simp only [detectMultipleVegetables, hgrid, hagg] at hm
        exact Except.noConfusion hm
      | ok det =>
        cases preds with
        | nil => exact absurd hagg (by simp [aggregateResults])
        | cons g gs =>
          simp only [detectMultipleVegetables, hgrid, hagg, Except.ok.injEq] at hm
          refine ⟨g :: gs, zones, rfl, rfl, ?_, ?_⟩
          · rw [← hm]
          · rw [← hm]
            exact hagg

/-- C10: every DetectedObject of the multi-object pipeline has confidence
at least 30 (zone hits exceed a per-category threshold of at least 35,
recovery entries are floored at 30 and the dominant rule needs more than
60), and consequently the per-object unknown re-evaluation — run against
the synthesized 3-candidate list with fixed gaps 20 and 30 — always says
`isUnknown = false`: no object on the multi path is ever reported
unrecognized. -/
theorem C10_multi_objects_never_unknown (w h : ℕ) (ex : ℕ → ℕ → Bool)
    (gc : Except String (List Prediction))
    (zc : ℕ → Except String (List Prediction))
    (single : Except String SingleResult) (b : Bool)
    (enriched : List EnrichedVeg) (m : MultiResult)
    (hpm : performMultipleDetection (detectMultipleVegetables w h ex gc zc) single =
      .ok (.multiple b enriched m)) :
    (∀ d ∈ m.detected, 30 ≤ d.confidence) ∧
      ∀ ev ∈ enriched, ev.isUnknown = false := by
  cases hd : detectMultipleVegetables w h ex gc zc with
  | error e =>
    simp only [performMultipleDetection, performMultipleAttempt, hd] at hpm
    unfold fallbackToSingle at hpm
    cases single <;> simp at hpm
  | ok m0 =>
    simp only [performMultipleDetection, performMultipleAttempt, hd] at hpm
    rcases hen : enrichAll m0.detected with e | en
    · rw [hen] at hpm
      unfold fallbackToSingle at hpm
      cases single <;> simp at hpm
    · rw [hen] at hpm
      rcases hua : shouldClassifyAsUnknown m0.allPredictions none with e | dua
      · rw [hua] at hpm
        unfold fallbackToSingle at hpm
        cases single <;> simp at hpm
      · rw [hua] at hpm
        simp only [Except.ok.injEq, DetectionOutcome.multiple.injEq] at hpm
        obtain ⟨hb, hen', hm'⟩ := hpm
        obtain ⟨preds, zones, hgc, hgrid, hall, hagg⟩ :=
          detect_ok_inv w h ex gc zc m0 hd
        have hzge := pipelineZones_conf_ge preds zc zones.length
        have hge := aggregateResults_conf_ge preds _ m0.detected hzge hagg
        constructor
        · rw [← hm']
          exact hge
        · intro ev hev
          rw [← hen'] at hev
          obtain ⟨v, hv, hvev⟩ := enrichAll_mem m0.detected en hen ev hev
          exact enrichVeg_isUnknown_false v (hge v hv) ev hvev

unseal Rat.mul Rat.add Rat.sub Rat.inv in
/-- C10 witness: a one-zone run detecting Tomate at 70 yields a detection of
confidence 70 ≥ 30 whose re-evaluation keeps `isUnknown = false`. -/
theorem C10_multi_objects_never_unknown_witness :
    (∀ d ∈ ([⟨"Tomate", 70, ["zone_1"], "zone"⟩] : List DetectedVeg),
      30 ≤ d.confidence) ∧
      ∀ ev ∈ ([⟨"tomate", "Tomate", 70, ["zone_1"], "zone", false⟩] :
          List EnrichedVeg), ev.isUnknown = false :=
  C10_multi_objects_never_unknown 300 300 (fun r c => r == 0 && c == 0)
    (.ok [⟨"Tomate", 70⟩]) (fun _ => .ok [⟨"Tomate", 70⟩])
    (.ok ⟨"tomate", "Tomate", 70, true, false⟩) false
    [⟨"tomate", "Tomate", 70, ["zone_1"], "zone", false⟩]
    ⟨⟨"Tomate", 70⟩, [⟨"Tomate", 70⟩], [⟨"Tomate", 70, ["zone_1"], "zone"⟩],
      [⟨ZoneId.num 1, [⟨"Tomate", 70⟩], ⟨"Tomate", 70⟩⟩], 1, 1, 70⟩
    (by decide)

/-! ## Failure semantics of the multi-object path -/

theorem mem_gridCells (a : ℕ × ℕ) (ha : a ∈ gridCells) : a.1 < 3 ∧ a.2 < 3 := by
  simp only [gridCells, gridSize, List.mem_flatMap, List.mem_map, List.mem_range] at ha
  obtain ⟨r, hr, c, hc, rfl⟩ := ha
  exact ⟨hr, hc⟩

theorem createImageGrid_no_valid_zones (w h : ℕ) (ex : ℕ → ℕ → Bool)
    (hw : 150 ≤ w) (hh : 150 ≤ h)
    (hex : ∀ r c, r < 3 → c < 3 → ex r c = false) :
    createImageGrid w h ex =
      .error "Impossible de créer la grille d'image: Aucune zone valide n'a pu être créée" := by
  have h0 : ¬ (w = 0 ∨ h = 0) := by omega
  have h1 : ¬ (w < 150 ∨ h < 150) := by omega
  have h2 : ¬ (w / 3 < 50 ∨ h / 3 < 50) := by omega
  simp only [createImageGrid, gridSize]
  rw [if_neg h0, if_neg h1, if_neg h2]
  split
  · rfl
  · next hne =>
    exfalso
    apply hne
    rw [List.isEmpty_iff]
    apply List.filterMap_eq_nil_iff.mpr
    intro a ha
    have hb := mem_gridCells a ha
    have hexa := hex a.1 a.2 hb.1 hb.2
    clear hne hex h0 h1 h2 hw hh ha
    simp only [hexa]
    split_ifs <;> first | rfl | exact False.elim (by assumption)

theorem detect_grid_error (w h : ℕ) (ex : ℕ → ℕ → Bool)
    (preds : List Prediction) (zc : ℕ → Except String (List Prediction))
    (e : String) (hgrid : createImageGrid w h ex = .error e) :
    detectMultipleVegetables w h ex (.ok preds) zc = .error e := by
  simp only [detectMultipleVegetables, hgrid]

theorem pm_fallback_of_detect_error (multi : Except String MultiResult)
    (s : SingleResult) (e : String) (hm : multi = .error e) :
    performMultipleDetection multi (.ok s) = .ok (.singleFallback s e) := by
  rw [hm]
  rfl

theorem pm_multiple_of_detect_ok (w h : ℕ) (ex : ℕ → ℕ → Bool)
    (top : Prediction) (rest : List Prediction)
    (zc : ℕ → Except String (List Prediction)) (zones : List ZonePosition)
    (s : SingleResult) (hzones : createImageGrid w h ex = .ok zones) :
    ∃ b en m, performMultipleDetection
      (detectMultipleVegetables w h ex (.ok (top :: rest)) zc) (.ok s) =
      .ok (.multiple b en m) := by
  rcases hdet : detectMultipleVegetables w h ex (.ok (top :: rest)) zc with e | m
  · exfalso
    simp only [detectMultipleVegetables, hzones, aggregateResults] at hdet
    exact Except.noConfusion hdet
  · obtain ⟨preds', zones', hgc, _, hall, _⟩ :=
      detect_ok_inv w h ex (.ok (top :: rest)) zc m hdet
    have hpreds : preds' = top :: rest := ((Except.ok.injEq _ _).mp hgc).symm
    rw [hpreds] at hall
    obtain ⟨en, hen⟩ := enrichAll_isOk m.detected
    refine ⟨(shouldClassifyAsUnknownCore top rest none).isUnknown, en, m, ?_⟩
    simp only [performMultipleDetection, performMultipleAttempt, hen, hall,
      shouldClassifyAsUnknown]

unseal Rat.mul Rat.add Rat.sub Rat.inv in
/-- C2 (counterexample): an exception during the classification of a single
zone does not abort the multi-object path — it is caught per-zone and the
zone skipped.  With zone 0's classification throwing and all other zones
classifying Tomate at 70, the request is still answered by the
multi-object path, not by the single-object fallback the claim requires. -/
theorem C2_counterexample :
    ((fun i => if i = 0 then .error "zone classification failed"
        else .ok [⟨"Tomate", 70⟩] : ℕ → Except String (List Prediction)) 0 =
      .error "zone classification failed") ∧
    isMultipleOutcome (performMultipleDetection
      (detectMultipleVegetables 300 300 (fun _ _ => true) (.ok [⟨"Tomate", 70⟩])
        (fun i => if i = 0 then .error "zone classification failed"
          else .ok [⟨"Tomate", 70⟩]))
      (.ok ⟨"tomate", "Tomate", 70, true, false⟩)) = true := by
  constructor
  · rfl
  · decide

/-- C2 (amended): an exception raised during tiling aborts the multi-object
path and the request is answered via the single-object path with the
failure reason attached (provided the whole-image classifier worked on the
single path); but an exception during the classification of a single zone
does not abort — the zone is skipped and, whenever tiling succeeded and
the whole-image classification is non-empty, the multi-object path
completes regardless of zone-classification failures. -/
theorem C2_amended_failure_semantics (w h : ℕ) (ex : ℕ → ℕ → Bool)
    (preds : List Prediction) (zc : ℕ → Except String (List Prediction))
    (s : SingleResult) :
    (∀ e, createImageGrid w h ex = .error e →
      performMultipleDetection (detectMultipleVegetables w h ex (.ok preds) zc)
        (.ok s) = .ok (.singleFallback s e)) ∧
    (∀ top rest zones, preds = top :: rest →
      createImageGrid w h ex = .ok zones →
      ∃ b en m, performMultipleDetection
        (detectMultipleVegetables w h ex (.ok preds) zc) (.ok s) =
        .ok (.multiple b en m)) := by
  constructor
  · intro e hgrid
    exact pm_fallback_of_detect_error _ s e
      (detect_grid_error w h ex preds zc e hgrid)
  · intro top rest zones hpreds hzones
    rw [hpreds]
    exact pm_multiple_of_detect_ok w h ex top rest zc zones s hzones

unseal Rat.mul Rat.add Rat.sub Rat.inv in
/-- C2 (amended) witness: a 140×140 image makes tiling throw the size error
and the request is answered by the single path with that reason attached;
a 300×300 image with one materialized zone completes the multi path. -/
theorem C2_amended_failure_semantics_witness :
    performMultipleDetection
      (detectMultipleVegetables 140 140 (fun _ _ => true) (.ok [⟨"Tomate", 70⟩])
        (fun _ => .ok [⟨"Tomate", 70⟩]))
      (.ok ⟨"tomate", "Tomate", 70, true, false⟩) =
      .ok (.singleFallback ⟨"tomate", "Tomate", 70, true, false⟩
        "Impossible de créer la grille d'image: Image trop petite: 140x140 (minimum 150x150 pour découpe)") ∧
    ∃ b en m, performMultipleDetection
      (detectMultipleVegetables 300 300 (fun r c => r == 0 && c == 0)
        (.ok [⟨"Tomate", 70⟩]) (fun _ => .ok [⟨"Tomate", 70⟩]))
      (.ok ⟨"tomate", "Tomate", 70, true, false⟩) = .ok (.multiple b en m) :=
  ⟨(C2_amended_failure_semantics 140 140 (fun _ _ => true) [⟨"Tomate", 70⟩]
      (fun _ => .ok [⟨"Tomate", 70⟩]) ⟨"tomate", "Tomate", 70, true, false⟩).1
      _ (by decide),
   (C2_amended_failure_semantics 300 300 (fun r c => r == 0 && c == 0)
      [⟨"Tomate", 70⟩] (fun _ => .ok [⟨"Tomate", 70⟩])
      ⟨"tomate", "Tomate", 70, true, false⟩).2
      ⟨"Tomate", 70⟩ [] [⟨0, 0, 0, 0, 100, 100⟩] rfl (by decide)⟩

/-- C7: an image with either dimension below 150 px, or whose computed grid
cell is smaller than 50×50 px, makes tiling fail with an error (the size
error for non-degenerate undersized images); when no zone at all can be
materialized the specific no-valid-zones error is thrown; and whenever
tiling fails the caller answers via the single-object path with the reason
attached instead of surfacing the failure. -/
theorem C7_tiling_size_gate (w h : ℕ) (ex : ℕ → ℕ → Bool) :
    ((w < 150 ∨ h < 150 ∨ w / 3 < 50 ∨ h / 3 < 50) →
      ∃ e, createImageGrid w h ex = .error e) ∧
    (150 ≤ w → 150 ≤ h → (∀ r c, r < 3 → c < 3 → ex r c = false) →
      createImageGrid w h ex =
        .error "Impossible de créer la grille d'image: Aucune zone valide n'a pu être créée") ∧
    (∀ e preds (zc : ℕ → Except String (List Prediction)) (s : SingleResult),
      createImageGrid w h ex = .error e →
      performMultipleDetection (detectMultipleVegetables w h ex (.ok preds) zc)
        (.ok s) = .ok (.singleFallback s e)) := by
  refine ⟨?_, createImageGrid_no_valid_zones w h ex, ?_⟩
  · intro hsize
    by_cases h0 : w = 0 ∨ h = 0
    · have heq : createImageGrid w h ex =
          .error "Impossible de créer la grille d'image: Métadonnées invalides" := by
        simp only [createImageGrid, gridSize]
        rw [if_pos h0]
      exact ⟨_, heq⟩
    · by_cases h1 : w < 150 ∨ h < 150
      · have heq : createImageGrid w h ex =
            .error ("Impossible de créer la grille d'image: Image trop petite: " ++
              toString w ++ "x" ++ toString h ++ " (minimum 150x150 pour découpe)") := by
          simp only [createImageGrid, gridSize]
          rw [if_neg h0, if_pos h1]
        exact ⟨_, heq⟩
      · have h2 : w / 3 < 50 ∨ h / 3 < 50 := by omega
        have heq : createImageGrid w h ex =
            .error ("Impossible de créer la grille d'image: Zones calculées trop petites: " ++
              toString (w / 3) ++ "x" ++ toString (h / 3) ++ " (minimum 50x50)") := by
          simp only [createImageGrid, gridSize]
          rw [if_neg h0, if_neg h1, if_pos h2]
        exact ⟨_, heq⟩
  · intro e preds zc s hgrid
    exact pm_fallback_of_detect_error _ s e (detect_grid_error w h ex preds zc e hgrid)

/-- C7 witness: tiling a 140×140 image fails with the size error and the
caller answers via the single path; a 300×300 image whose every cell fails
to materialize hits the no-valid-zones error. -/
theorem C7_tiling_size_gate_witness :
    (∃ e, createImageGrid 140 140 (fun _ _ => true) = .error e) ∧
    createImageGrid 300 300 (fun _ _ => false) =
      .error "Impossible de créer la grille d'image: Aucune zone valide n'a pu être créée" ∧
    performMultipleDetection
      (detectMultipleVegetables 140 140 (fun _ _ => true) (.ok [⟨"Tomate", 70⟩])
        (fun _ => .ok [⟨"Tomate", 70⟩]))
      (.ok ⟨"tomate", "Tomate", 70, true, false⟩) =
      .ok (.singleFallback ⟨"tomate", "Tomate", 70, true, false⟩
        "Impossible de créer la grille d'image: Image trop petite: 140x140 (minimum 150x150 pour découpe)") :=
  ⟨(C7_tiling_size_gate 140 140 (fun _ _ => true)).1 (by norm_num),
   (C7_tiling_size_gate 300 300 (fun _ _ => false)).2.1 (by norm_num) (by norm_num)
     (fun r c _ _ => rfl),
   (C7_tiling_size_gate 140 140 (fun _ _ => true)).2.2 _ [⟨"Tomate", 70⟩]
     (fun _ => .ok [⟨"Tomate", 70⟩]) ⟨"tomate", "Tomate", 70, true, false⟩
     (by decide)⟩

/-! ## Value tracking through aggregation for a single category -/

theorem mapGet_aggStep1Fun_ne (m : VegMap) (zr : ZoneResult) (c : String)
    (h : zr.topVegetable.cls ≠ c) :
    mapGet (aggStep1Fun m zr) c = mapGet m c := by
  unfold aggStep1Fun
  by_cases hh : mapHas m zr.topVegetable.cls = true
  · rw [if_pos hh]
    exact mapGet_mapUpdate_ne _ _ _ _ (Ne.symm h)
  · rw [if_neg hh]
    exact mapGet_mapSet_ne _ _ _ _ (Ne.symm h)

theorem mapGet_aggStep2Fun_ne (m : VegMap) (p : Prediction) (c : String)
    (h : p.cls ≠ c) :
    mapGet (aggStep2Fun m p) c = mapGet m c := by
  unfold aggStep2Fun
  by_cases hk : knownVegetables.contains p.cls = true
  · rw [if_pos hk]
    by_cases hh : (!mapHas m p.cls) = true
    · rw [if_pos hh]
      by_cases hc : p.confidence > 20
      · rw [if_pos hc]
        exact mapGet_mapSet_ne _ _ _ _ (Ne.symm h)
      · rw [if_neg hc]
    · rw [if_neg hh]
      exact mapGet_mapUpdate_ne _ _ _ _ (Ne.symm h)
  · rw [if_neg hk]

theorem aggStep1_foldl_mapGet (zrs : List ZoneResult) (c : String)
    (h : ∀ zr ∈ zrs, zr.topVegetable.cls ≠ c) :
    ∀ m0, mapGet (zrs.foldl aggStep1Fun m0) c = mapGet m0 c := by
  induction zrs with
  | nil => intro m0; rfl
  | cons zr zrs ih =>
    intro m0
    simp only [List.foldl_cons]
    rw [ih (fun z hz => h z (List.mem_cons_of_mem zr hz)) (aggStep1Fun m0 zr),
      mapGet_aggStep1Fun_ne m0 zr c (h zr (List.mem_cons_self zr zrs))]

theorem aggStep2_foldl_mapGet (ps : List Prediction) (c : String)
    (h : ∀ p ∈ ps, p.cls ≠ c) :
    ∀ m0, mapGet (ps.foldl aggStep2Fun m0) c = mapGet m0 c := by
  induction ps with
  | nil => intro m0; rfl
  | cons p ps ih =>
    intro m0
    simp only [List.foldl_cons]
    rw [ih (fun z hz => h z (List.mem_cons_of_mem p hz)) (aggStep2Fun m0 p),
      mapGet_aggStep2Fun_ne m0 p c (h p (List.mem_cons_self p ps))]

theorem global_split (globalResult : List Prediction) (c : String) (q : ℚ)
    (hq : Prediction.mk c q ∈ globalResult)
    (hnodup : (globalResult.map Prediction.cls).Nodup) :
    ∃ g1 g2, globalResult = g1 ++ ⟨c, q⟩ :: g2 ∧
      (∀ p ∈ g1, p.cls ≠ c) ∧ ∀ p ∈ g2, p.cls ≠ c := by
  obtain ⟨g1, g2, rfl⟩ := List.append_of_mem hq
  rw [List.map_append, List.map_cons, List.nodup_append] at hnodup
  refine ⟨g1, g2, rfl, ?_, ?_⟩
  · intro p hp hc
    have hmem : p.cls ∈ Prediction.cls ⟨c, q⟩ :: g2.map Prediction.cls := by
      rw [hc]
      exact List.mem_cons_self _ _
    exact hnodup.2.2 (List.mem_map_of_mem Prediction.cls hp) hmem
  · intro p hp hc
    have hmem : c ∈ g2.map Prediction.cls := by
      rw [← hc]
      exact List.mem_map_of_mem Prediction.cls hp
    exact (List.nodup_cons.mp hnodup.2.1).1 hmem

theorem mapGet_aggMap_of_step2 (globalResult : List Prediction)
    (zoneResults : List ZoneResult) (c : String) (v : DetectedVeg)
    (hget : mapGet (aggStep2 globalResult (aggStep1 zoneResults)) c = some v) :
    mapGet (aggMap globalResult zoneResults) c = some v := by
  rcases globalResult with _ | ⟨dom, rest⟩
  · exact hget
  · simp only [aggMap]
    by_cases hd : dom.confidence > 60 ∧
        mapHas (aggStep2 (dom :: rest) (aggStep1 zoneResults)) dom.cls = false
    · rw [if_pos hd]
      by_cases hdc : dom.cls = c
      · exfalso
        have h2 := hd.2
        rw [hdc, mapHas_false_iff_mapGet_none, hget] at h2
        exact Option.noConfusion h2
      · rw [mapGet_mapSet_ne _ _ _ _ (Ne.symm hdc)]
        exact hget
    · rw [if_neg hd]
      exact hget

theorem mapHas_eq_true_of_mapGet (m : VegMap) (c : String) (v : DetectedVeg)
    (h : mapGet m c = some v) : mapHas m c = true := by
  by_contra hfalse
  rw [Bool.not_eq_true, mapHas_false_iff_mapGet_none, h] at hfalse
  exact Option.noConfusion hfalse

theorem aggregateResults_ok_inv (globalResult : List Prediction)
    (zoneResults : List ZoneResult) (l : List DetectedVeg)
    (hagg : aggregateResults globalResult zoneResults = .ok l) :
    l = sortDetected ((aggMap globalResult zoneResults).map Prod.snd) := by
  rcases globalResult with _ | ⟨g, gs⟩
  · exact absurd hagg (by simp [aggregateResults])
  · simp only [aggregateResults, Except.ok.injEq] at hagg
    exact hagg.symm

theorem mapGet_aggStep1Fun_recovery (M : VegMap) (c : String) (q : ℚ)
    (hhas : mapHas M c = false) :
    mapGet (aggStep1Fun M
      ⟨ZoneId.globalRecovery, [⟨c, q⟩], ⟨c, max q 30⟩⟩) c =
      some ⟨c, max q 30, ["zone_global_recovery"], "global-recovery"⟩ := by
  have hc : ¬ (mapHas M c = true) := by
    rw [hhas]
    exact Bool.false_ne_true
  simp only [aggStep1Fun]
  rw [if_neg hc, mapGet_mapSet_self]
  rfl

theorem mapGet_aggStep2Fun_keep (M : VegMap) (c : String) (q : ℚ) (v : DetectedVeg)
    (hk : c ∈ knownVegetables) (hget : mapGet M c = some v)
    (hvq : ¬ (⟨c, q⟩ : Prediction).confidence > v.confidence) :
    mapGet (aggStep2Fun M ⟨c, q⟩) c = some v := by
  have hkc : knownVegetables.contains c = true := by simpa using hk
  have hhas : mapHas M c = true := mapHas_eq_true_of_mapGet M c v hget
  have hc1 : knownVegetables.contains (⟨c, q⟩ : Prediction).cls = true := hkc
  have hc2 : ¬ ((!mapHas M (⟨c, q⟩ : Prediction).cls) = true) := by
    show ¬ ((!mapHas M c) = true)
    rw [hhas]
    decide
  unfold aggStep2Fun
  rw [if_pos hc1, if_neg hc2, mapGet_mapUpdate_self, hget, Option.map_some']
  exact congrArg some (if_neg hvq)

theorem mapGet_aggStep2Fun_add (M : VegMap) (c : String) (q : ℚ)
    (hk : c ∈ knownVegetables) (hget : mapGet M c = none) :
    mapGet (aggStep2Fun M ⟨c, q⟩) c =
      if 20 < q then some ⟨c, max q 30, ["global"], "global-weak"⟩ else none := by
  have hkc : knownVegetables.contains c = true := by simpa using hk
  have hhas : mapHas M c = false := (mapHas_false_iff_mapGet_none M c).mpr hget
  have hc1 : knownVegetables.contains (⟨c, q⟩ : Prediction).cls = true := hkc
  have hc2 : (!mapHas M (⟨c, q⟩ : Prediction).cls) = true := by
    show (!mapHas M c) = true
    rw [hhas]
    decide
  unfold aggStep2Fun
  rw [if_pos hc1, if_pos hc2]
  by_cases hq : 20 < q
  · have hq' : (⟨c, q⟩ : Prediction).confidence > 20 := hq
    rw [if_pos hq', if_pos hq]
    exact mapGet_mapSet_self M c _
  · have hq' : ¬ (⟨c, q⟩ : Prediction).confidence > 20 := hq
    rw [if_neg hq', if_neg hq]
    exact hget

theorem aggStep2_append_get (g1 g2 : List Prediction) (c : String) (q : ℚ)
    (m1 : VegMap) (hg2 : ∀ p ∈ g2, p.cls ≠ c) :
    mapGet (aggStep2 (g1 ++ ⟨c, q⟩ :: g2) m1) c =
      mapGet (aggStep2Fun (g1.foldl aggStep2Fun m1) ⟨c, q⟩) c := by
  unfold aggStep2
  rw [List.foldl_append, List.foldl_cons]
  exact aggStep2_foldl_mapGet g2 c hg2 _

theorem mapGet_aggMap_none_of_step2 (g1 g2 : List Prediction)
    (zoneResults : List ZoneResult) (c : String) (q : ℚ)
    (hg1 : ∀ p ∈ g1, p.cls ≠ c) (hq60 : ¬ q > 60)
    (hget : mapGet (aggStep2 (g1 ++ ⟨c, q⟩ :: g2) (aggStep1 zoneResults)) c = none) :
    mapGet (aggMap (g1 ++ ⟨c, q⟩ :: g2) zoneResults) c = none := by
  rcases g1 with _ | ⟨d, g1'⟩
  · simp only [List.nil_append] at hget ⊢
    simp only [aggMap]
    have hcond : ¬ ((⟨c, q⟩ : Prediction).confidence > 60 ∧
        mapHas (aggStep2 (⟨c, q⟩ :: g2) (aggStep1 zoneResults))
          (⟨c, q⟩ : Prediction).cls = false) :=
      fun hcon => hq60 hcon.1
    rw [if_neg hcond]
    exact hget
  · simp only [List.cons_append] at hget ⊢
    simp only [aggMap]
    by_cases hd : d.confidence > 60 ∧
        mapHas (aggStep2 (d :: (g1' ++ ⟨c, q⟩ :: g2)) (aggStep1 zoneResults))
          d.cls = false
    · rw [if_pos hd,
        mapGet_mapSet_ne _ _ _ _ (Ne.symm (hg1 d (List.mem_cons_self d g1')))]
      exact hget
    · rw [if_neg hd]
      exact hget

theorem aggStep1_includeWeak_get (g1 g2 : List Prediction)
    (zoneResults : List ZoneResult) (c : String) (q : ℚ)
    (hk : c ∈ knownVegetables)
    (hg1 : ∀ p ∈ g1, p.cls ≠ c) (hg2 : ∀ p ∈ g2, p.cls ≠ c)
    (hz : ∀ zr ∈ zoneResults, zr.topVegetable.cls ≠ c) :
    mapGet (aggStep1 (includeWeakButKnownVegetables (g1 ++ ⟨c, q⟩ :: g2)
      zoneResults)) c =
      if 25 < q then
        some ⟨c, max q 30, ["zone_global_recovery"], "global-recovery"⟩
      else none := by
  have hkc : knownVegetables.contains c = true := by simpa using hk
  have hnm : c ∉ zoneResults.map fun z => z.topVegetable.cls := by
    intro hmem
    obtain ⟨z, hzz, heq⟩ := List.mem_map.mp hmem
    exact hz z hzz heq
  have hdt : ((zoneResults.map fun z => z.topVegetable.cls).contains c) = false := by
    rw [Bool.eq_false_iff]
    intro hct
    exact hnm (by simpa using hct)
  have hg1m : ∀ zr ∈ (g1.filter fun p =>
      knownVegetables.contains p.cls &&
        !((zoneResults.map fun z => z.topVegetable.cls).contains p.cls) &&
          decide (p.confidence > 25)).map fun p =>
        (⟨ZoneId.globalRecovery, [p], ⟨p.cls, max p.confidence 30⟩⟩ : ZoneResult),
      zr.topVegetable.cls ≠ c := by
    intro zr hzr
    obtain ⟨p, hp, heq⟩ := List.mem_map.mp hzr
    rw [← heq]
    exact hg1 p (List.mem_filter.mp hp).1
  have hg2m : ∀ zr ∈ (g2.filter fun p =>
      knownVegetables.contains p.cls &&
        !((zoneResults.map fun z => z.topVegetable.cls).contains p.cls) &&
          decide (p.confidence > 25)).map fun p =>
        (⟨ZoneId.globalRecovery, [p], ⟨p.cls, max p.confidence 30⟩⟩ : ZoneResult),
      zr.topVegetable.cls ≠ c := by
    intro zr hzr
    obtain ⟨p, hp, heq⟩ := List.mem_map.mp hzr
    rw [← heq]
    exact hg2 p (List.mem_filter.mp hp).1
  have hPx : ((fun p : Prediction =>
      knownVegetables.contains p.cls &&
        !((zoneResults.map fun z => z.topVegetable.cls).contains p.cls) &&
          decide (p.confidence > 25)) ⟨c, q⟩) = decide (25 < q) := by
    show (knownVegetables.contains c &&
      !((zoneResults.map fun z => z.topVegetable.cls).contains c) &&
        decide (q > 25)) = decide (25 < q)
    rw [hkc, hdt]
    rfl
  show mapGet (List.foldl aggStep1Fun []
      (zoneResults ++ ((g1 ++ ⟨c, q⟩ :: g2).filter fun p =>
        knownVegetables.contains p.cls &&
          !((zoneResults.map fun z => z.topVegetable.cls).contains p.cls) &&
            decide (p.confidence > 25)).map fun p =>
        (⟨ZoneId.globalRecovery, [p], ⟨p.cls, max p.confidence 30⟩⟩ : ZoneResult))) c = _
  rw [List.filter_append, List.filter_cons, List.map_append, List.foldl_append,
    List.foldl_append]
  have h0 : mapGet (List.foldl aggStep1Fun [] zoneResults) c = none :=
    (aggStep1_foldl_mapGet zoneResults c hz []).trans rfl
  have h1 := (aggStep1_foldl_mapGet _ c hg1m _).trans h0
  by_cases hq : 25 < q
  · have hcyes := hPx.trans (decide_eq_true hq)
    rw [if_pos hcyes, if_pos hq, List.map_cons, List.foldl_cons]
    refine (aggStep1_foldl_mapGet _ c hg2m _).trans ?_
    exact mapGet_aggStep1Fun_recovery _ c q ((mapHas_false_iff_mapGet_none _ c).mpr h1)
  · have hcno : ¬ ((fun p : Prediction =>
        knownVegetables.contains p.cls &&
          !((zoneResults.map fun z => z.topVegetable.cls).contains p.cls) &&
            decide (p.confidence > 25)) ⟨c, q⟩ = true) := by
      rw [hPx]
      simpa using hq
    rw [if_neg hcno, if_neg hq]
    exact (aggStep1_foldl_mapGet _ c hg2m _).trans h1

theorem mapGet_c3_pipeline (g1 g2 : List Prediction) (zoneResults : List ZoneResult)
    (c : String) (q : ℚ)
    (hk : c ∈ knownVegetables)
    (hg1 : ∀ p ∈ g1, p.cls ≠ c) (hg2 : ∀ p ∈ g2, p.cls ≠ c)
    (hz : ∀ zr ∈ zoneResults, zr.topVegetable.cls ≠ c) :
    mapGet (aggMap (g1 ++ ⟨c, q⟩ :: g2)
      (includeWeakButKnownVegetables (g1 ++ ⟨c, q⟩ :: g2) zoneResults)) c =
      if 20 < q then
        some ⟨c, max q 30,
          if 25 < q then ["zone_global_recovery"] else ["global"],
          if 25 < q then "global-recovery" else "global-weak"⟩
      else none := by
  have h1 := aggStep1_includeWeak_get g1 g2 zoneResults c q hk hg1 hg2 hz
  by_cases hq25 : 25 < q
  · rw [if_pos hq25] at h1
    have h2a := (aggStep2_foldl_mapGet g1 c hg1 _).trans h1
    have h2b := mapGet_aggStep2Fun_keep _ c q _ hk h2a (not_lt.mpr (le_max_left q 30))
    have h2 := (aggStep2_append_get g1 g2 c q _ hg2).trans h2b
    have h3 := mapGet_aggMap_of_step2 _ _ c _ h2
    have h20 : (20 : ℚ) < q := lt_trans (by norm_num) hq25
    rw [if_pos h20, if_pos hq25, if_pos hq25]
    exact h3
  · rw [if_neg hq25] at h1
    have h2a := (aggStep2_foldl_mapGet g1 c hg1 _).trans h1
    have h2b := mapGet_aggStep2Fun_add _ c q hk h2a
    have h2 := (aggStep2_append_get g1 g2 c q _ hg2).trans h2b
    by_cases hq20 : 20 < q
    · rw [if_pos hq20] at h2
      have h3 := mapGet_aggMap_of_step2 _ _ c _ h2
      rw [if_pos hq20, if_neg hq25, if_neg hq25]
      exact h3
    · rw [if_neg hq20] at h2
      have h60 : ¬ q > 60 := fun h60 => hq20 (lt_trans (by norm_num) h60)
      have h3 := mapGet_aggMap_none_of_step2 g1 g2 _ c q hg1 h60 h2
      rw [if_neg hq20]
      exact h3

/-- C3 counterexample: the recovery threshold "strictly greater than 25" of
the claim is refuted by the aggregation inputs `global = [{Tomate, 50},
{Carotte, 22}]` with a single zone detecting Tomate: Carotte has global
confidence 22, which is not greater than 25, yet it is added (by step 2 of
`aggregateResults`, whose threshold is 20) as a `global-weak` entry with
confidence `max 22 30 = 30`. -/
theorem C3_counterexample :
    aggregateResults [⟨"Tomate", 50⟩, ⟨"Carotte", 22⟩]
        (includeWeakButKnownVegetables [⟨"Tomate", 50⟩, ⟨"Carotte", 22⟩]
          [⟨ZoneId.num 3, [⟨"Tomate", 50⟩], ⟨"Tomate", 50⟩⟩]) =
      .ok [⟨"Tomate", 50, ["zone_3"], "zone"⟩,
        ⟨"Carotte", 30, ["global"], "global-weak"⟩] ∧
    ¬ (25 : ℚ) < 22 := by
  constructor
  · rfl
  · norm_num

/-- C3 (amended): in the full recovery pipeline (`includeWeakButKnown-
Vegetables` followed by `aggregateResults`), a known category `c` that
appears in the global prediction list with confidence `q` and is not the
top vegetable of any zone is added to the output if and only if `20 < q`
(not `25 < q` as claimed); when added, its confidence is `max q 30`, and it
never yields two independent entries. -/
theorem C3_amended (globalResult : List Prediction) (zoneResults : List ZoneResult)
    (c : String) (q : ℚ) (l : List DetectedVeg)
    (hk : c ∈ knownVegetables)
    (hmem : Prediction.mk c q ∈ globalResult)
    (hnodup : (globalResult.map Prediction.cls).Nodup)
    (hz : ∀ zr ∈ zoneResults, zr.topVegetable.cls ≠ c)
    (hagg : aggregateResults globalResult
      (includeWeakButKnownVegetables globalResult zoneResults) = .ok l) :
    ((∃ d ∈ l, d.type = c) ↔ 20 < q) ∧
      (∀ d ∈ l, d.type = c → d.confidence = max q 30) ∧
      (∀ d₁ ∈ l, ∀ d₂ ∈ l, d₁.type = c → d₂.type = c → d₁ = d₂) := by
  obtain ⟨g1, g2, hG, hg1, hg2⟩ := global_split globalResult c q hmem hnodup
  subst hG
  have hpipe := mapGet_c3_pipeline g1 g2 zoneResults c q hk hg1 hg2 hz
  have hl := aggregateResults_ok_inv _ _ l hagg
  obtain ⟨hnd, ht⟩ := aggMap_inv (g1 ++ ⟨c, q⟩ :: g2)
    (includeWeakButKnownVegetables (g1 ++ ⟨c, q⟩ :: g2) zoneResults)
  by_cases hq20 : 20 < q
  · rw [if_pos hq20] at hpipe
    have hval : ∀ d ∈ l, d.type = c →
        d = ⟨c, max q 30,
          if 25 < q then ["zone_global_recovery"] else ["global"],
          if 25 < q then "global-recovery" else "global-weak"⟩ := by
      intro d hd hdc
      obtain ⟨e, he, hed⟩ := mem_aggregateResults _ _ l d hagg hd
      have hek : e.1 = c := by
        rw [← hdc, ← hed]
        exact (ht e he).symm
      have hgete := mapGet_of_mem_nodup _ e hnd he
      rw [hek, hpipe] at hgete
      rw [← hed, ← Option.some.inj hgete]
    have hvmem : (⟨c, max q 30,
        if 25 < q then ["zone_global_recovery"] else ["global"],
        if 25 < q then "global-recovery" else "global-weak"⟩ : DetectedVeg) ∈ l := by
      have hmm := mapGet_mem _ _ _ hpipe
      rw [hl]
      exact (sortDetected_perm _).mem_iff.mpr (List.mem_map.mpr ⟨_, hmm, rfl⟩)
    refine ⟨⟨fun _ => hq20, fun _ => ⟨_, hvmem, rfl⟩⟩, ?_, ?_⟩
    · intro d hd hdc
      rw [hval d hd hdc]
    · intro d₁ hd₁ d₂ hd₂ h₁ h₂
      rw [hval d₁ hd₁ h₁, hval d₂ hd₂ h₂]
  · rw [if_neg hq20] at hpipe
    have hnone : ∀ d ∈ l, d.type ≠ c := by
      intro d hd hdc
      obtain ⟨e, he, hed⟩ := mem_aggregateResults _ _ l d hagg hd
      have hek : e.1 = c := by
        rw [← hdc, ← hed]
        exact (ht e he).symm
      have hgete := mapGet_of_mem_nodup _ e hnd he
      rw [hek, hpipe] at hgete
      exact Option.noConfusion hgete
    exact ⟨⟨fun hex => absurd hex.choose_spec.2 (hnone _ hex.choose_spec.1),
        fun h => absurd h hq20⟩,
      fun d hd hdc => absurd hdc (hnone d hd),
      fun d₁ hd₁ d₂ hd₂ h₁ h₂ => absurd h₁ (hnone d₁ hd₁)⟩

/-- C3 witness: the amended statement at the counterexample inputs —
Carotte appears with global confidence 22, no zone detects it, and it is
added exactly once with confidence `max 22 30 = 30`. -/
theorem C3_amended_witness :
    ((∃ d ∈ ([⟨"Tomate", 50, ["zone_3"], "zone"⟩,
        ⟨"Carotte", 30, ["global"], "global-weak"⟩] : List DetectedVeg),
        d.type = "Carotte") ↔ (20 : ℚ) < 22) ∧
      (∀ d ∈ ([⟨"Tomate", 50, ["zone_3"], "zone"⟩,
        ⟨"Carotte", 30, ["global"], "global-weak"⟩] : List DetectedVeg),
        d.type = "Carotte" → d.confidence = max 22 30) ∧
      (∀ d₁ ∈ ([⟨"Tomate", 50, ["zone_3"], "zone"⟩,
        ⟨"Carotte", 30, ["global"], "global-weak"⟩] : List DetectedVeg),
        ∀ d₂ ∈ ([⟨"Tomate", 50, ["zone_3"], "zone"⟩,
          ⟨"Carotte", 30, ["global"], "global-weak"⟩] : List DetectedVeg),
        d₁.type = "Carotte" → d₂.type = "Carotte" → d₁ = d₂) :=
  C3_amended [⟨"Tomate", 50⟩, ⟨"Carotte", 22⟩]
    [⟨ZoneId.num 3, [⟨"Tomate", 50⟩], ⟨"Tomate", 50⟩⟩] "Carotte" 22
    [⟨"Tomate", 50, ["zone_3"], "zone"⟩,
      ⟨"Carotte", 30, ["global"], "global-weak"⟩]
    (by decide) (by decide) (by decide) (by decide) rfl

end FricoAi
